import Mathlib

/-!
# Verification of the shopping-mcp adapter layer

A shallow embedding, in Lean 4, of the core logic of the `shopping-mcp`
repository: the Rami Levy best-price calculator, cart reconciliation,
the adapter methods' error handling, the adapter factory, and the
`ShoppingSecurity` validators.  JavaScript numbers on the price paths are
modelled as rationals (`ℚ`), quantities as naturals (`ℕ`), JS strings as
Lean `String`, JS exceptions/Promise rejections as `Except String`, and
JS `undefined`-able fields as `Option`.
-/

namespace ShoppingMCP

/-- JS truthiness of an optional string: `undefined` and `""` are falsy. -/
def truthyOptStr : Option String → Bool
  | none => false
  | some s => s ≠ ""

/-- JS `a || b` on strings, where the empty string is falsy. -/
def strOr (a b : String) : String := if a = "" then b else a

/-- A JS `try { body } catch (e) { handler }` where `body` may throw. -/
def jsTry {α : Type} (body : Except String α) (handler : String → α) : α :=
  match body with
  | .ok a => a
  | .error e => handler e

/-- Accessing a property of a possibly-`undefined` JS value: throws a
`TypeError` (caught by any enclosing `try`) when the value is absent.
Models the TS non-null assertion `x!` followed by a property access. -/
def jsNonNull {α : Type} : Option α → Except String α
  | some a => .ok a
  | none => .error "TypeError: Cannot read properties of undefined"

/-! ## Shared data model (`src/.../shopping/types.ts`) -/

/-- `ShoppingOperationResult<T>`: both variants carry `website`; the
success variant carries `data`, the failure variant carries `error`. -/
structure ShoppingOperationResult (T : Type) where
  success : Bool
  data : Option T := none
  error : Option String := none
  website : String

structure WebsiteCredentials where
  apiKey : Option String := none
  accessToken : Option String := none
  refreshToken : Option String := none
  clientId : Option String := none

def createSuccessResult {T : Type} (website : String) (d : T) :
    ShoppingOperationResult T :=
  { success := true, data := some d, website := website }

def createErrorResult {T : Type} (website : String) (e : String) :
    ShoppingOperationResult T :=
  { success := false, error := some e, website := website }

structure CartItem where
  id : String
  productId : String
  productTitle : String
  quantity : ℕ
  unitPrice : ℚ
  totalPrice : ℚ
  variant : Option String := none
  imageUrl : Option String := none
deriving DecidableEq, Repr

structure Cart where
  items : List CartItem
  totalItems : ℕ
  totalPrice : ℚ
  currency : String
deriving DecidableEq, Repr

/-! ## Rami Levy sale data and the best-price calculator
(`rami-levy-adapter.ts`, `RamiLevySaleData` / `calculateBestPrice`) -/

/-- `RamiLevySaleData`: `cmt` = quantity needed for the discount, `scm` =
total price for `cmt` units, `max_in_doc` = optional cap on discounted
units, `is_club = 1` for club members only, `active = 1` when live. -/
structure SaleData where
  code : ℕ := 0
  cmt : ℕ
  scm : ℚ
  is_club : ℕ := 0
  active : ℕ := 1
  max_in_doc : Option ℕ := none
deriving DecidableEq, Repr

/-- `RamiLevyProductData` (the fields `calculateBestPrice` and the cart
reconciliation read).  `price` models `price?.price` (absent object ⇒
`none`); `imageSmall` models `images?.small`; `gsName` models `gs?.name`. -/
structure RamiLevyProductData where
  id : ℕ
  name : String
  price : Option ℚ := none
  imageSmall : Option String := none
  available_in : List ℕ := []
  sale : List SaleData := []
  gsName : Option String := none
deriving DecidableEq, Repr

/-- The structured content of the `saleInfo` display string built by
`calculateBestPrice` (the source renders it to text with `toFixed(2)`
display rounding; the numeric fields here are unrounded, as in the
source's arithmetic). -/
inductive SaleInfo where
  | applied (sale : SaleData) (savings : ℚ)
  | potential (sale : SaleData) (needed : ℕ)
deriving DecidableEq, Repr

structure PriceInfo where
  unitPrice : ℚ
  totalPrice : ℚ
  saleInfo : Option SaleInfo := none
deriving DecidableEq, Repr

/-- Per-tier total for `quantity` units: the body of the `for` loop of
`calculateBestPrice` (`max_in_doc` branch vs. uncapped branch). -/
def saleTotal (regularPrice : ℚ) (quantity : ℕ) (sale : SaleData) : ℚ :=
  match sale.max_in_doc with
  | some m =>
    if 0 < m then
      -- only up to max_in_doc quantity gets the sale price
      let discountedQty := min quantity m
      let regularQty := quantity - discountedQty
      let saleUnits := discountedQty / sale.cmt
      let remainingDiscountedItems := discountedQty % sale.cmt
      (saleUnits : ℚ) * sale.scm + (remainingDiscountedItems : ℚ) * regularPrice +
        (regularQty : ℚ) * regularPrice
    else
      ((quantity / sale.cmt : ℕ) : ℚ) * sale.scm +
        ((quantity % sale.cmt : ℕ) : ℚ) * regularPrice
  | none =>
      ((quantity / sale.cmt : ℕ) : ℚ) * sale.scm +
        ((quantity % sale.cmt : ℕ) : ℚ) * regularPrice

/-- The applicability filter: `active === 1 && cmt > 0 && scm > 0 &&
quantity >= cmt`.  Club-only tiers are not excluded. -/
def isApplicableSale (quantity : ℕ) (s : SaleData) : Bool :=
  decide (s.active = 1 ∧ 0 < s.cmt ∧ 0 < s.scm ∧ s.cmt ≤ quantity)

/-- One iteration of the best-sale selection loop: update the running
`(bestSale, bestTotalPrice)` pair only on a strictly lower total. -/
def bestStep (regularPrice : ℚ) (quantity : ℕ) (acc : Option SaleData × ℚ)
    (sale : SaleData) : Option SaleData × ℚ :=
  let t := saleTotal regularPrice quantity sale
  if t < acc.2 then (some sale, t) else acc

/-- The best-sale selection loop: starts from `(null, regularTotal)`. -/
def bestSaleLoop (regularPrice : ℚ) (quantity : ℕ) (init : ℚ)
    (sales : List SaleData) : Option SaleData × ℚ :=
  sales.foldl (bestStep regularPrice quantity) (none, init)

/-- `min(cmt, max_in_doc)` when capped, else `cmt`. -/
def effectiveMaxQty (s : SaleData) : ℕ :=
  match s.max_in_doc with
  | some m => if 0 < m then min s.cmt m else s.cmt
  | none => s.cmt

/-- The potential-sale filter of `calculateBestPrice`. -/
def isPotentialSale (quantity : ℕ) (s : SaleData) : Bool :=
  if ¬(s.active = 1 ∧ 0 < s.cmt ∧ 0 < s.scm) then false
  else if (match s.max_in_doc with
           | some m => decide (0 < m) && decide (m ≤ quantity)
           | none => false) then false
  else decide (quantity < effectiveMaxQty s)

/-- The `reduce` step choosing the potential sale with the lowest
`scm / cmt` unit price (ties keep the earlier one). -/
def pickPotential (best current : SaleData) : SaleData :=
  if current.scm / (current.cmt : ℚ) < best.scm / (best.cmt : ℚ) then current
  else best

/-- `RamiLevyAdapter.calculateBestPrice`. -/
def calculateBestPrice (product : RamiLevyProductData) (quantity : ℕ) :
    PriceInfo :=
  let regularPrice := product.price.getD 0
  let regularTotal := regularPrice * quantity
  if product.sale.isEmpty || quantity == 0 then
    { unitPrice := regularPrice, totalPrice := regularTotal }
  else
    let applicableSales := product.sale.filter (isApplicableSale quantity)
    if applicableSales.isEmpty then
      { unitPrice := regularPrice, totalPrice := regularTotal }
    else
      let best := bestSaleLoop regularPrice quantity regularTotal applicableSales
      match best.1 with
      | some bestSale =>
          let savings := regularTotal - best.2
          { unitPrice := best.2 / (quantity : ℚ), totalPrice := best.2,
            saleInfo := some (.applied bestSale savings) }
      | none =>
          let potentialSales := product.sale.filter (isPotentialSale quantity)
          match potentialSales with
          | [] => { unitPrice := regularPrice, totalPrice := regularTotal }
          | h :: tl =>
              let bestPotentialSale := tl.foldl pickPotential h
              let needed := effectiveMaxQty bestPotentialSale - quantity
              { unitPrice := regularPrice, totalPrice := regularTotal,
                saleInfo := some (.potential bestPotentialSale needed) }

/-! ## String helpers modelling JS string operations -/

/-- JS `String.prototype.includes`, at the `List Char` level. -/
def listIncludes (sub : List Char) : List Char → Bool
  | [] => sub.isEmpty
  | l@(_ :: rest) => sub.isPrefixOf l || listIncludes sub rest

/-- JS `s.includes(sub)`. -/
def strIncludes (s sub : String) : Bool := listIncludes sub.data s.data

/-- `.replace(/[<>]/g, "")`. -/
def stripAngles (s : String) : String :=
  String.mk (s.data.filter (fun c => !(c == '<' || c == '>')))

/-- JS truthiness of an optional number: `undefined`, `0` (and `NaN`) are falsy. -/
def truthyOptQ : Option ℚ → Bool
  | none => false
  | some q => q ≠ 0

/-- JS `a || b` on possibly-`undefined` strings (empty string falsy). -/
def jsOrOptStr (a b : Option String) : Option String :=
  if truthyOptStr a then a else b

/-! ## Normalized product model and `BaseShoppingAdapter.sanitizeProduct` -/

structure Product where
  id : String
  title : String
  description : String
  price : ℚ
  currency : String
  imageUrl : Option String := none
  availability : Bool
  rating : Option ℚ := none
  reviewCount : Option ℚ := none
  category : Option String := none
  brand : Option String := none
  url : Option String := none
deriving DecidableEq, Repr

/-- The result of the WHATWG `new URL(...)` constructor, an external
collaborator: `protocol` and the normalized `toString()` rendering. -/
structure ParsedUrl where
  protocol : String
  render : String

/-- `BaseShoppingAdapter.sanitizeUrl`, parametrized by the external URL
parser (`parseURL u = none` models the constructor throwing). -/
def sanitizeUrl (parseURL : String → Option ParsedUrl) : Option String → Option String
  | none => none
  | some u =>
    if u = "" then none   -- `if (!url) return undefined`
    else
      match parseURL u with
      | none => none      -- `catch { return undefined }`
      | some p =>
        if p.protocol ≠ "http:" ∧ p.protocol ≠ "https:" then none
        else some p.render

/-- `BaseShoppingAdapter.sanitizeProduct`. -/
def sanitizeProduct (parseURL : String → Option ParsedUrl) (product : Product) :
    Product :=
  { id := stripAngles product.id,
    title := (stripAngles product.title).take 200,
    description := (stripAngles product.description).take 1000,
    price := product.price,
    currency := (strOr product.currency "USD").take 3,
    imageUrl := sanitizeUrl parseURL product.imageUrl,
    availability := product.availability,
    rating :=
      if truthyOptQ product.rating then
        some (min (max (product.rating.getD 0) 0) 5)
      else none,
    reviewCount :=
      if truthyOptQ product.reviewCount then some (max (product.reviewCount.getD 0) 0)
      else none,
    category :=
      if truthyOptStr product.category then
        some ((stripAngles (product.category.getD "")).take 100)
      else none,
    brand :=
      if truthyOptStr product.brand then
        some ((stripAngles (product.brand.getD "")).take 100)
      else none,
    url := sanitizeUrl parseURL product.url }

structure PriceRange where
  min : ℚ
  max : ℚ
deriving DecidableEq, Repr

structure ProductSearchOptions where
  query : String
  category : Option String := none
  priceRange : Option PriceRange := none

structure ProductSearchResult where
  products : List Product
  totalCount : ℕ
  hasMore : Bool
deriving DecidableEq, Repr

/-! ## Rami Levy cart reconciliation (`getCartContents`, steps 3–4) -/

/-- `cartItems[key] || 0` on the `Record<string, number>` of the user cart. -/
def lookupQty (cartItems : List (String × ℕ)) (key : String) : ℕ :=
  (((cartItems.find? (fun kv => kv.1 == key)).map (fun kv => kv.2)).getD 0)

/-- Rendering of the structured sale info into the display string appended
to the product title (display-only; `toFixed(2)` rounding of the savings
figure is not modelled bit-exactly — no claim depends on this text). -/
def renderSaleInfo : SaleInfo → String
  | .applied sale savings =>
      "💰 Sale: " ++ Nat.repr sale.cmt ++ " for " ++ toString sale.scm ++
        " ILS (Save " ++ toString savings ++ " ILS)" ++
        (if sale.is_club = 1 then " (Club members only)" else "") ++
        (match sale.max_in_doc with
         | some m => if 0 < m then " (Max " ++ Nat.repr m ++ " items on sale)" else ""
         | none => "")
  | .potential sale needed =>
      "🛒 Add " ++ Nat.repr needed ++ " more for sale: " ++ Nat.repr sale.cmt ++
        " for " ++ toString sale.scm ++ " ILS" ++
        (if sale.is_club = 1 then " (Club members only)" else "") ++
        (match sale.max_in_doc with
         | some m => if 0 < m then " (Max " ++ Nat.repr m ++ " items on sale)" else ""
         | none => "")

/-- The available-at-store cart line (`availableCartItems` map body). -/
def mkAvailableCartItem (cartItems : List (String × ℕ))
    (product : RamiLevyProductData) : CartItem :=
  let quantity := lookupQty cartItems (Nat.repr product.id)
  let priceInfo := calculateBestPrice product quantity
  let productTitle :=
    match priceInfo.saleInfo with
    | some info => strOr (product.gsName.getD "") product.name ++ " - " ++ renderSaleInfo info
    | none => strOr (product.gsName.getD "") product.name
  { id := "rami-levy-" ++ Nat.repr product.id,
    productId := Nat.repr product.id,
    productTitle := productTitle,
    quantity := quantity,
    unitPrice := priceInfo.unitPrice,
    totalPrice := priceInfo.totalPrice,
    imageUrl :=
      if truthyOptStr product.imageSmall then
        some ("https://www.rami-levy.co.il" ++ product.imageSmall.getD "")
      else none }

/-- The unavailable-at-store cart line (`unavailableCartItems` map body):
`totalPrice` is forced to `0` and the id carries the `-unavailable` suffix. -/
def mkUnavailableCartItem (storeId : ℕ) (cartItems : List (String × ℕ))
    (product : RamiLevyProductData) : CartItem :=
  let quantity := lookupQty cartItems (Nat.repr product.id)
  let unitPrice := product.price.getD 0
  { id := "rami-levy-" ++ Nat.repr product.id ++ "-unavailable",
    productId := Nat.repr product.id,
    productTitle := "❌ " ++ strOr (product.gsName.getD "") product.name ++
      " (Not available in store " ++ Nat.repr storeId ++ ")",
    quantity := quantity,
    unitPrice := unitPrice,
    totalPrice := 0,
    imageUrl :=
      if truthyOptStr product.imageSmall then
        some ("https://www.rami-levy.co.il" ++ product.imageSmall.getD "")
      else none }

/-- Steps 3–4 of `getCartContents`: partition by store availability, build
all cart lines, and compute the dual totals (all quantities vs. prices of
available lines only). -/
def reconcileCart (store : String) (cartItems : List (String × ℕ))
    (productsData : List RamiLevyProductData) : Cart :=
  let storeId := store.toNat?.getD 0   -- parseInt(this.store)
  let availableProducts :=
    productsData.filter (fun product => product.available_in.contains storeId)
  let unavailableProducts :=
    productsData.filter (fun product => !(product.available_in.contains storeId))
  let availableCartItems := availableProducts.map (mkAvailableCartItem cartItems)
  let unavailableCartItems :=
    unavailableProducts.map (mkUnavailableCartItem storeId cartItems)
  let cartItemsResult := availableCartItems ++ unavailableCartItems
  let totalItems := cartItemsResult.foldl (fun sum item => sum + item.quantity) 0
  let totalPrice := availableCartItems.foldl (fun sum item => sum + item.totalPrice) 0
  { items := cartItemsResult, totalItems := totalItems, totalPrice := totalPrice,
    currency := "ILS" }

/-! ## Rami Levy adapter methods

The HTTP transport (`ApiClient`) is an external collaborator: it is a
parameter returning `Except String ρ` for an abstract raw-response type
`ρ` (a rejection models a thrown/rejected call).  The unchecked TS casts
(`response as {...}`) become parameter functions `ρ → <shape>`. -/

structure RamiLevyState where
  website : String := "rami-levy"
  credentials : Option WebsiteCredentials := none
  store : String := "331"

structure RLCatalogPayload where
  q : String
  store : String
  aggs : ℕ

structure RLCartPayload where
  store : String
  isClub : ℕ
  supplyAt : String
  items : List (String × String)

inductive RLPayload where
  | catalog (p : RLCatalogPayload)
  | cart (p : RLCartPayload)
  | items (ids : String) (idType : String)

/-- The two authenticated clients of the Rami Levy adapter: `apiClient`
(`post`) and `userApiClient` (`userGet`). -/
structure RLTransport (ρ : Type) where
  post : String → RLPayload → Except String ρ
  userGet : String → Except String ρ

structure RLCatalogItem where
  id : ℕ
  name : String
  price : ℚ
  imageSmall : Option String := none

structure RLCatalogResp where
  data : List RLCatalogItem
  total : ℕ
  status : ℕ

structure RLCartRespItem where
  id : ℕ
  name : String
  price : ℚ
  quantity : ℕ
  FormatedTotalPrice : Option ℚ := none

structure RLCartResp where
  items : List RLCartRespItem
  status : ℕ

structure RLUserCart where
  items : Option (List (String × ℕ))

structure RLUserCartResp where
  cart : Option RLUserCart

structure RLItemsResp where
  data : Option (List RamiLevyProductData)

/-- The unchecked `as`-casts of the Rami Levy adapter. -/
structure RLParsers (ρ : Type) where
  castCatalog : ρ → RLCatalogResp
  castCart : ρ → RLCartResp
  castUserCart : ρ → RLUserCartResp
  castItems : ρ → RLItemsResp

def emptyILSCart : Cart :=
  { items := [], totalItems := 0, totalPrice := 0, currency := "ILS" }

/-- `RamiLevyAdapter.getCartContents`.  `envUserId` models
`process.env.RAMI_LEVY_USER_ID`. -/
def ramiLevyGetCartContents {ρ : Type} (ps : RLParsers ρ) (t : RLTransport ρ)
    (envUserId : Option String) (st : RamiLevyState) :
    ShoppingOperationResult Cart :=
  jsTry
    (do
      let userId :=
        strOr (strOr ((st.credentials.bind (fun c => c.clientId)).getD "")
          (envUserId.getD "")) "1"
      if userId = "" then
        pure (createErrorResult st.website "Missing Rami Levy user ID (RAMI_LEVY_USER_ID)")
      else do
        let r ← t.userGet ("/v2/site/clubs/customer/" ++ userId)
        match (ps.castUserCart r).cart with
        | none => pure (createSuccessResult st.website emptyILSCart)
        | some cart =>
          match cart.items with
          | none => pure (createSuccessResult st.website emptyILSCart)
          | some cartItems =>
            let productIds := cartItems.map (fun kv => kv.1)
            if productIds.isEmpty then
              pure (createSuccessResult st.website emptyILSCart)
            else do
              let r2 ← t.post "/items" (.items (String.intercalate "," productIds) "id")
              match (ps.castItems r2).data with
              | none =>
                pure (createErrorResult st.website "Failed to get product details from cart")
              | some productsData =>
                pure (createSuccessResult st.website
                  (reconcileCart st.store cartItems productsData)))
    (fun e =>
      createErrorResult st.website ("Failed to get Rami Levy cart contents: " ++ e))

/-- `RamiLevyAdapter.updateCart` (private helper).  `supplyAt` models the
`new Date(Date.now() + 24h).toISOString()` timestamp. -/
def ramiLevyUpdateCart {ρ : Type} (t : RLTransport ρ)
    (supplyAt : String) (st : RamiLevyState) (items : List (String × ℕ)) :
    ShoppingOperationResult Bool :=
  jsTry
    (do
      let payload : RLCartPayload :=
        { store := st.store, isClub := 0, supplyAt := supplyAt,
          items := items.map (fun kv => (kv.1, Nat.repr kv.2)) }
      let _ ← t.post "/v2/cart" (.cart payload)
      pure (createSuccessResult st.website true))
    (fun e => createErrorResult st.website ("Failed to update Rami Levy cart: " ++ e))

/-- `RamiLevyAdapter.searchProducts`. -/
def ramiLevySearchProducts {ρ : Type} (ps : RLParsers ρ) (t : RLTransport ρ)
    (parseURL : String → Option ParsedUrl) (st : RamiLevyState)
    (options : ProductSearchOptions) :
    ShoppingOperationResult ProductSearchResult :=
  jsTry
    (do
      let r ← t.post "/catalog" (.catalog { q := options.query, store := st.store, aggs := 1 })
      let resp := ps.castCatalog r
      if resp.status ≠ 200 then
        pure (createErrorResult st.website "Search request failed")
      else
        let products := resp.data.map (fun item =>
          sanitizeProduct parseURL
            { id := Nat.repr item.id,
              title := item.name,
              description := item.name,
              price := item.price,
              currency := "ILS",
              imageUrl :=
                if truthyOptStr item.imageSmall then
                  some ("https://www.rami-levy.co.il" ++ item.imageSmall.getD "")
                else none,
              availability := true,
              category := options.category,
              brand := some "Rami Levy" })
        pure (createSuccessResult st.website
          { products := products,
            totalCount := products.length,
            hasMore := decide (resp.data.length < resp.total) }))
    (fun e =>
      createErrorResult st.website ("Failed to search products on Rami Levy: " ++ e))

/-- `RamiLevyAdapter.addToCart`. -/
def ramiLevyAddToCart {ρ : Type} (ps : RLParsers ρ) (t : RLTransport ρ)
    (supplyAt : String) (st : RamiLevyState) (productId : String)
    (quantity : ℕ) (variant : Option String) :
    ShoppingOperationResult CartItem :=
  jsTry
    (do
      let r ← t.post "/v2/cart"
        (.cart { store := st.store, isClub := 0, supplyAt := supplyAt,
                 items := [(productId, Nat.repr quantity)] })
      let cartResponse := ps.castCart r
      if cartResponse.status ≠ 200 then
        pure (createErrorResult st.website "Failed to add item to cart")
      else
        match cartResponse.items.find? (fun item => Nat.repr item.id == productId) with
        | none => pure (createErrorResult st.website "Item was not added to cart")
        | some addedItem =>
          pure (createSuccessResult st.website
            { id := "rami-levy-" ++ Nat.repr addedItem.id,
              productId := productId,
              productTitle := addedItem.name,
              quantity := addedItem.quantity,
              unitPrice := addedItem.price,
              totalPrice :=
                if truthyOptQ addedItem.FormatedTotalPrice then
                  addedItem.FormatedTotalPrice.getD 0
                else addedItem.price * addedItem.quantity,
              variant := variant }))
    (fun e =>
      createErrorResult st.website ("Failed to add product to Rami Levy cart: " ++ e))

/-- JS object-literal accumulation `acc[k] = v` over a string-keyed record:
overwrite an existing key in place, else append. -/
def setKey (acc : List (String × ℕ)) (k : String) (v : ℕ) : List (String × ℕ) :=
  if acc.any (fun kv => kv.1 == k) then
    acc.map (fun kv => if kv.1 == k then (k, v) else kv)
  else acc ++ [(k, v)]

/-- The replacement-cart payload built by `removeFromCart`: drops the
targeted item and every item whose id contains `-unavailable`. -/
def removeRebuildItems (cartItemId : String) (items : List CartItem) :
    List (String × ℕ) :=
  (items.filter (fun item =>
      item.id != cartItemId && !(strIncludes item.id "-unavailable"))).foldl
    (fun acc item => setKey acc item.productId item.quantity) []

/-- The replacement-cart payload built by `updateCartQuantity`: keeps only
items whose id does not contain `-unavailable`, with the targeted item's
quantity replaced. -/
def updateRebuildItems (cartItemId : String) (quantity : ℕ)
    (items : List CartItem) : List (String × ℕ) :=
  (items.filter (fun item => !(strIncludes item.id "-unavailable"))).foldl
    (fun acc item =>
      setKey acc item.productId (if item.id == cartItemId then quantity else item.quantity))
    []

/-- `RamiLevyAdapter.removeFromCart`. -/
def ramiLevyRemoveFromCart {ρ : Type} (ps : RLParsers ρ) (t : RLTransport ρ)
    (supplyAt : String) (envUserId : Option String) (st : RamiLevyState)
    (cartItemId : String) : ShoppingOperationResult Bool :=
  jsTry
    (do
      let currentCartResult := ramiLevyGetCartContents ps t envUserId st
      if currentCartResult.success = false then
        pure (createErrorResult st.website "Failed to get current cart contents")
      else do
        let currentCart ← jsNonNull currentCartResult.data
        let updatedItems := removeRebuildItems cartItemId currentCart.items
        pure (ramiLevyUpdateCart t supplyAt st updatedItems))
    (fun e =>
      createErrorResult st.website ("Failed to remove item from Rami Levy cart: " ++ e))

/-- `RamiLevyAdapter.updateCartQuantity`. -/
def ramiLevyUpdateCartQuantity {ρ : Type} (ps : RLParsers ρ) (t : RLTransport ρ)
    (supplyAt : String) (envUserId : Option String) (st : RamiLevyState)
    (cartItemId : String) (quantity : ℕ) : ShoppingOperationResult CartItem :=
  jsTry
    (do
      let currentCartResult := ramiLevyGetCartContents ps t envUserId st
      if currentCartResult.success = false then
        pure (createErrorResult st.website "Failed to get current cart contents")
      else do
        let currentCart ← jsNonNull currentCartResult.data
        match currentCart.items.find? (fun item => item.id == cartItemId) with
        | none => pure (createErrorResult st.website "Cart item not found")
        | some itemToUpdate =>
          if quantity = 0 then
            let removeResult := ramiLevyRemoveFromCart ps t supplyAt envUserId st cartItemId
            if removeResult.success = false then
              pure (createErrorResult st.website
                (strOr (removeResult.error.getD "") "Failed to remove item"))
            else
              pure (createSuccessResult st.website
                { id := cartItemId,
                  productId := itemToUpdate.productId,
                  productTitle := itemToUpdate.productTitle,
                  quantity := 0,
                  unitPrice := itemToUpdate.unitPrice,
                  totalPrice := 0 })
          else
            let updatedItems := updateRebuildItems cartItemId quantity currentCart.items
            let updateResult := ramiLevyUpdateCart t supplyAt st updatedItems
            if updateResult.success = false then
              pure (createErrorResult st.website
                (strOr (updateResult.error.getD "") "Failed to update cart"))
            else
              let updatedCartResult := ramiLevyGetCartContents ps t envUserId st
              if updatedCartResult.success = false then
                pure (createErrorResult st.website "Failed to get updated cart contents")
              else do
                let updatedCart ← jsNonNull updatedCartResult.data
                match updatedCart.items.find? (fun item => item.id == cartItemId) with
                | none =>
                  pure (createErrorResult st.website
                    "Updated item not found in cart after update")
                | some updatedItem => pure (createSuccessResult st.website updatedItem))
    (fun e =>
      createErrorResult st.website ("Failed to update Rami Levy cart quantity: " ++ e))

/-! ## Shufersal adapter (`shufersal-adapter.ts`) -/

structure ShufersalState where
  website : String := "shufersal"
  credentials : Option WebsiteCredentials := none

structure ShufersalPriceObj where
  value : Option ℚ := none
  currencyIso : Option String := none

structure ShufersalImage where
  imageType : Option String := none
  format : Option String := none
  url : Option String := none

/-- A Shufersal search result item (`price` is `number | {value,...}`). -/
structure ShufersalItem where
  code : String
  name : String
  price : Option (ℚ ⊕ ShufersalPriceObj) := none
  categoryPrice : Option ShufersalPriceObj := none
  pricePerUnit : Option ShufersalPriceObj := none
  effectivePrice : Option ℚ := none
  brandName : Option String := none
  secondLevelCategory : Option String := none
  url : Option String := none
  stockStatusCode : Option String := none
  images : Option (List ShufersalImage) := none
  baseProductImageLarge : Option String := none
  baseProductImageMedium : Option String := none
  baseProductImageSmall : Option String := none
  averageRating : Option ℚ := none
  numberOfReviews : Option ℚ := none

structure ShufersalSearchResp where
  results : Option (List ShufersalItem)

structure ShufersalCartBody where
  productCodePost : String
  productCode : String
  sellingMethod : String
  qty : String
  frontQuantity : String
  comment : String
  affiliateCode : String

/-- Shufersal transports: the search client (`get`) and the per-call cart
client (`cartPost`, whose response is HTML text, raw type `σ`). -/
structure ShufersalTransport (ρ σ : Type) where
  get : String → List (String × String) → Except String ρ
  cartPost : ShufersalCartBody → Except String σ

/-- The unchecked casts of the Shufersal adapter; `castHtml` returns
`none` when the cart response is not a string (`typeof` check). -/
structure ShufersalParsers (ρ σ : Type) where
  castSearch : ρ → ShufersalSearchResp
  castHtml : σ → Option String

/-- The price-determination cascade of `ShufersalAdapter.searchProducts`. -/
def shufersalPriceNum (item : ShufersalItem) : ℚ :=
  match item.price with
  | some (Sum.inl n) => n
  | other =>
    match (match other with
           | some (Sum.inr obj) => obj.value
           | _ => none) with
    | some v => v
    | none =>
      match item.categoryPrice.bind (fun o => o.value) with
      | some v => v
      | none =>
        match item.pricePerUnit.bind (fun o => o.value) with
        | some v => v
        | none =>
          match item.effectivePrice with
          | some v => v
          | none => 0

/-- The currency-determination `||` chain. -/
def shufersalCurrency (item : ShufersalItem) : String :=
  strOr (match item.price with
         | some (Sum.inr obj) => (obj.currencyIso).getD ""
         | _ => "")
    (strOr ((item.categoryPrice.bind (fun o => o.currencyIso)).getD "")
      (strOr ((item.pricePerUnit.bind (fun o => o.currencyIso)).getD "") "ILS"))

/-- The image-URL `||` chain. -/
def shufersalImageUrl (item : ShufersalItem) : Option String :=
  jsOrOptStr item.baseProductImageLarge
    (jsOrOptStr item.baseProductImageMedium
      (jsOrOptStr item.baseProductImageSmall
        (jsOrOptStr
          (((item.images.getD []).find?
              (fun i => (i.format.getD "").toLower == "product")).bind (fun i => i.url))
          (jsOrOptStr
            (((item.images.getD []).find?
                (fun i => (i.format.getD "").toLower == "large")).bind (fun i => i.url))
            (match (item.images.getD []).head? with
             | some i => i.url
             | none => none)))))

/-- The per-item product transformation of `ShufersalAdapter.searchProducts`. -/
def shufersalItemToProduct (parseURL : String → Option ParsedUrl)
    (item : ShufersalItem) : Product :=
  let availability := ((item.stockStatusCode.getD "").toLower == "instock")
  let url :=
    if truthyOptStr item.url then
      (if (item.url.getD "").startsWith "http" then item.url.getD ""
       else "https://www.shufersal.co.il" ++ item.url.getD "")
    else "https://www.shufersal.co.il/online/he/product/" ++ item.code
  sanitizeProduct parseURL
    { id := item.code,
      title := item.name,
      description :=
        if truthyOptStr item.brandName then item.name ++ " - " ++ item.brandName.getD ""
        else item.name,
      price := shufersalPriceNum item,
      currency := shufersalCurrency item,
      availability := availability,
      category := item.secondLevelCategory,
      brand := item.brandName,
      url := some url,
      imageUrl := shufersalImageUrl item,
      rating := item.averageRating,
      reviewCount := item.numberOfReviews }

/-- `ShufersalAdapter.searchProducts`. -/
def shufersalSearchProducts {ρ σ : Type} (ps : ShufersalParsers ρ σ)
    (t : ShufersalTransport ρ σ) (parseURL : String → Option ParsedUrl)
    (st : ShufersalState) (options : ProductSearchOptions) :
    ShoppingOperationResult ProductSearchResult :=
  jsTry
    (do
      let r ← t.get "/search/results" [("q", options.query), ("limit", "20")]
      match (ps.castSearch r).results with
      | none =>
        pure (createErrorResult st.website ("No results found for query: " ++ options.query))
      | some results =>
        let products := results.map (shufersalItemToProduct parseURL)
        let filteredProducts :=
          match options.priceRange with
          | some pr =>
            products.filter (fun product =>
              decide (pr.min ≤ product.price ∧ product.price ≤ pr.max))
          | none => products
        pure (createSuccessResult st.website
          { products := filteredProducts,
            totalCount := filteredProducts.length,
            hasMore := decide (20 ≤ results.length) }))
    (fun e =>
      createErrorResult st.website ("Failed to search products on Shufersal: " ++ e))

/-- `ShufersalAdapter.addToCart`.  `envCsrf`/`envCookie` model the
`process.env` fallbacks. -/
def shufersalAddToCart {ρ σ : Type} (ps : ShufersalParsers ρ σ)
    (t : ShufersalTransport ρ σ) (envCsrf envCookie : Option String)
    (st : ShufersalState) (productId : String) (quantity : ℕ)
    (variant : Option String) : ShoppingOperationResult String :=
  jsTry
    (do
      let csrfToken := strOr ((st.credentials.bind (fun c => c.apiKey)).getD "") (envCsrf.getD "")
      let cookie := strOr ((st.credentials.bind (fun c => c.accessToken)).getD "") (envCookie.getD "")
      if csrfToken = "" ∨ cookie = "" then
        pure (createErrorResult st.website
          "Missing Shufersal authentication credentials (SHUFERSAL_CSRF_TOKEN or SHUFERSAL_COOKIE)")
      else do
        let r ← t.cartPost
          { productCodePost := productId, productCode := productId,
            sellingMethod := "BY_UNIT", qty := Nat.repr quantity,
            frontQuantity := Nat.repr quantity, comment := "", affiliateCode := "" }
        match ps.castHtml r with
        | none => pure (createErrorResult st.website "Invalid response from Shufersal cart API")
        | some html =>
          if html = "" then
            pure (createErrorResult st.website "Invalid response from Shufersal cart API")
          else
            let responseHtml := html.trim
            if responseHtml.startsWith "<div class=" then
              pure (createSuccessResult st.website
                ("Successfully added " ++ Nat.repr quantity ++ " units of " ++ productId ++
                  " to Shufersal cart" ++
                  (if truthyOptStr variant then " (variant: " ++ variant.getD "" ++ ")" else "")))
            else
              pure (createErrorResult st.website
                "Product could not be added to cart - possible stock or authentication issue"))
    (fun e =>
      createErrorResult st.website ("Failed to add product to Shufersal cart: " ++ e))

/-- `ShufersalAdapter.removeFromCart` (capability not implemented). -/
def shufersalRemoveFromCart (st : ShufersalState) : ShoppingOperationResult Bool :=
  createErrorResult st.website "Cart operations not implemented for Shufersal"

/-- `ShufersalAdapter.updateCartQuantity` (capability not implemented). -/
def shufersalUpdateCartQuantity (st : ShufersalState) : ShoppingOperationResult CartItem :=
  createErrorResult st.website "Cart operations not implemented for Shufersal"

/-- `ShufersalAdapter.getCartContents` (capability not implemented). -/
def shufersalGetCartContents (st : ShufersalState) : ShoppingOperationResult Cart :=
  createErrorResult st.website "Cart operations not implemented for Shufersal"

/-! ## Adapter factory (`ShoppingAdapterFactory`) -/

/-- The environment/config source consumed by the factory. -/
structure EnvVars where
  RAMI_LEVY_API_KEY : Option String := none
  ECOM_TOKEN : Option String := none
  COOKIE : Option String := none
  RAMI_LEVY_USER_ID : Option String := none

/-- `ShoppingAdapterFactory.getRamiLevyCredentials`. -/
def getRamiLevyCredentials (env : Option EnvVars) : Option WebsiteCredentials :=
  match env with
  | none => none
  | some e =>
    let apiKey := if truthyOptStr e.RAMI_LEVY_API_KEY then e.RAMI_LEVY_API_KEY else none
    let accessToken := if truthyOptStr e.ECOM_TOKEN then e.ECOM_TOKEN else none
    let refreshToken := if truthyOptStr e.COOKIE then e.COOKIE else none
    let keyCount := (if apiKey.isSome then 1 else 0) + (if accessToken.isSome then 1 else 0) +
      (if refreshToken.isSome then 1 else 0)
    if 0 < keyCount then
      some { apiKey := apiKey, accessToken := accessToken, refreshToken := refreshToken }
    else none

/-- The `RamiLevyAdapter` constructor: `validateConfig()` (credentials must
be present since `requiresAuth`), then the three individual header checks.
A thrown `Error` is an `Except.error`. -/
def mkRamiLevyAdapter (credentials : Option WebsiteCredentials) :
    Except String RamiLevyState :=
  if credentials.isNone then
    .error "Rami Levy adapter requires API key, ecom token, and cookie credentials"
  else if ¬ truthyOptStr (credentials.bind (fun c => c.apiKey)) then
    .error "Rami Levy adapter requires API key"
  else if ¬ truthyOptStr (credentials.bind (fun c => c.accessToken)) then
    .error "Rami Levy adapter requires ecom token"
  else if ¬ truthyOptStr (credentials.bind (fun c => c.refreshToken)) then
    .error "Rami Levy adapter requires cookie"
  else .ok { credentials := credentials }

/-- The `ShufersalAdapter` constructor (throws nothing). -/
def mkShufersalAdapter (credentials : Option WebsiteCredentials) : ShufersalState :=
  { credentials := credentials }

inductive FactoryAdapter where
  | ramiLevy (st : RamiLevyState)
  | shufersal (st : ShufersalState)

/-- `ShoppingAdapterFactory.getAdapter`; the static `adapters` map is the
explicit `cache` (returned updated on a successful construction).  The
`catch` re-throws construction failures as a wrapped, descriptive `Error`. -/
def getAdapter (cache : List (String × FactoryAdapter)) (website : String)
    (env : Option EnvVars) :
    Except String (FactoryAdapter × List (String × FactoryAdapter)) :=
  match cache.find? (fun kv => kv.1 == website) with
  | some kv => .ok (kv.2, cache)
  | none =>
    let constructed : Except String FactoryAdapter :=
      if website = "rami-levy" then
        (mkRamiLevyAdapter (getRamiLevyCredentials env)).map FactoryAdapter.ramiLevy
      else if website = "shufersal" then
        .ok (FactoryAdapter.shufersal (mkShufersalAdapter none))
      else .error ("Unsupported website: " ++ website)
    match constructed with
    | .ok adapter => .ok (adapter, cache ++ [(website, adapter)])
    | .error e => .error ("Failed to initialize " ++ website ++ " adapter: " ++ e)

/-! ## `ShoppingSecurity.validateSearchQuery` -/

structure ValidationResult where
  isValid : Bool
  sanitized : String := ""
  error : Option String := none
deriving DecidableEq, Repr

/-- The apostrophe character `'` (written via its code point). -/
def aposChar : Char := Char.ofNat 39

/-- The backslash character `\`. -/
def backslashChar : Char := Char.ofNat 92

/-- The three sequential `replace(..., "")` passes: strip `<`, `>`, then
straight quotes, then backslashes. -/
def stripQueryChars (l : List Char) : List Char :=
  ((l.filter (fun c => !(c == '<' || c == '>'))).filter
      (fun c => !(c == aposChar || c == '"'))).filter
    (fun c => !(c == backslashChar))

/-- JS `String.prototype.trim` at the character-list level. -/
def trimChars (l : List Char) : List Char :=
  ((l.dropWhile Char.isWhitespace).reverse.dropWhile Char.isWhitespace).reverse

/-- The sanitization chain of `validateSearchQuery`: strip dangerous
characters, trim, truncate to 200 characters. -/
def sanitizeSearchQuery (query : String) : String :=
  String.mk ((trimChars (stripQueryChars query.data)).take 200)

/-- `ShoppingSecurity.validateSearchQuery`. -/
def validateSearchQuery (query : String) : ValidationResult :=
  if query = "" then
    { isValid := false, sanitized := "", error := some "Search query is required" }
  else
    let sanitized := sanitizeSearchQuery query
    if sanitized.length = 0 then
      { isValid := false, sanitized := "",
        error := some "Search query cannot be empty after sanitization" }
    else if sanitized.length < 2 then
      { isValid := false, sanitized := sanitized,
        error := some "Search query must be at least 2 characters" }
    else { isValid := true, sanitized := sanitized }

/-! ## `ShoppingSecurity.formatSecureError`

The five global case-insensitive `replace` passes are modelled by a
generic left-to-right scan-and-replace over character lists, parametrized
by a head-matcher `M` returning the number of characters consumed. -/

/-- Case-insensitive character comparison (the regex `i` flag; exact for
the ASCII patterns involved). -/
def ciEqChar (a b : Char) : Bool := a.toLower == b.toLower

/-- Case-insensitive "is a prefix of". -/
def ciPref : List Char → List Char → Bool
  | [], _ => true
  | _ :: _, [] => false
  | a :: xs, b :: ys => ciEqChar a b && ciPref xs ys

/-- Case-insensitive substring containment. -/
def containsCI (needle : List Char) : List Char → Bool
  | [] => ciPref needle []
  | l@(_ :: rest) => ciPref needle l || containsCI needle rest

/-- Head matcher for a literal pattern such as `/token/i`. -/
def plainMatchAt (needle : List Char) (l : List Char) : Option ℕ :=
  if ciPref needle l then some needle.length else none

/-- Head matcher for `/api[_-]?key/i` (the optional separator is a single
`_` or `-`). -/
def apiKeyMatchAt (l : List Char) : Option ℕ :=
  if ciPref ['a', 'p', 'i'] l then
    match l.drop 3 with
    | c :: rest2 =>
      if c == '_' || c == '-' then
        (if ciPref ['k', 'e', 'y'] rest2 then some 7 else none)
      else (if ciPref ['k', 'e', 'y'] (l.drop 3) then some 6 else none)
    | [] => none
  else none

/-- JS `String.prototype.replace` with a global regex: scan left to right,
on a match emit `repl` and continue after the matched characters,
otherwise emit one character and continue.  Structurally recursive on a
fuel that bounds the input length (one unit per scan step suffices). -/
def replaceByFuel (M : List Char → Option ℕ) (repl : List Char) :
    ℕ → List Char → List Char
  | 0, l => l
  | _ + 1, [] => []
  | fuel + 1, c :: rest =>
    match M (c :: rest) with
    | some k =>
      if 0 < k then repl ++ replaceByFuel M repl fuel ((c :: rest).drop k)
      else c :: replaceByFuel M repl fuel rest
    | none => c :: replaceByFuel M repl fuel rest

def replaceBy (M : List Char → Option ℕ) (repl : List Char) (l : List Char) :
    List Char :=
  replaceByFuel M repl l.length l

def redactedChars : List Char := "[REDACTED]".data

/-- `ShoppingSecurity.formatSecureError`: the five redaction passes in
source order, then `slice(0, 500)`. -/
def formatSecureError (error : String) : String :=
  let e1 := replaceBy apiKeyMatchAt redactedChars error.data
  let e2 := replaceBy (plainMatchAt "token".data) redactedChars e1
  let e3 := replaceBy (plainMatchAt "password".data) redactedChars e2
  let e4 := replaceBy (plainMatchAt "secret".data) redactedChars e3
  let e5 := replaceBy (plainMatchAt "credential".data) redactedChars e4
  String.mk (e5.take 500)

/-! ## Concrete fixtures used by the example parts of the claims -/

/-- A "buy 2 for 10" tier. -/
def tier2for10 : SaleData := { cmt := 2, scm := 10 }

/-- A product with regular price 6 and the "buy 2 for 10" tier. -/
def prod6tier2for10 : RamiLevyProductData :=
  { id := 1, name := "Milk", price := some 6, sale := [tier2for10] }

/-- A "buy 3 for 15, max 6 discounted units" tier. -/
def tier3for15max6 : SaleData := { cmt := 3, scm := 15, max_in_doc := some 6 }

/-- A product with regular price 6 and the capped "3 for 15" tier. -/
def prod6tier3for15max6 : RamiLevyProductData :=
  { id := 2, name := "Cheese", price := some 6, sale := [tier3for15max6] }



/-- A 201-character query: 199 `a`s then `" b"`.  Its sanitization trims
nothing, then the 200-character truncation leaves a trailing space. -/
def longQueryWithTrailingSpace : String := String.mk (List.replicate 199 'a') ++ " b"

/-- A concrete available cart line. -/
def availCartItem : CartItem :=
  { id := "rami-levy-123", productId := "123", productTitle := "Milk",
    quantity := 2, unitPrice := 6, totalPrice := 12 }

/-- A concrete store-unavailable cart line. -/
def unavailCartItem : CartItem :=
  { id := "rami-levy-456-unavailable", productId := "456", productTitle := "Gone",
    quantity := 1, unitPrice := 5, totalPrice := 0 }

/-- A result of the uniform failure shape `{success: false, error: ...}`. -/
def isErrorResult {T : Type} (r : ShoppingOperationResult T) : Prop :=
  r.success = false ∧ ∃ m, r.error = some m

/-- A transport whose every call rejects. -/
def throwingRLTransport : RLTransport Unit :=
  { post := fun _ _ => .error "network down", userGet := fun _ => .error "network down" }

def unitRLParsers : RLParsers Unit :=
  { castCatalog := fun _ => ⟨[], 0, 200⟩, castCart := fun _ => ⟨[], 200⟩,
    castUserCart := fun _ => ⟨none⟩, castItems := fun _ => ⟨none⟩ }

/-- A Shufersal transport whose every call rejects. -/
def throwingShufersalTransport : ShufersalTransport Unit Unit :=
  { get := fun _ _ => .error "network down", cartPost := fun _ => .error "network down" }

def unitShufersalParsers : ShufersalParsers Unit Unit :=
  { castSearch := fun _ => ⟨none⟩, castHtml := fun _ => none }

/-! ## Claims C1–C4: the best-price calculator -/

/-- Shorthand used in several proofs below. -/
lemma mem_applicable_iff (quantity : ℕ) (sales : List SaleData) (s : SaleData) :
    s ∈ sales.filter (isApplicableSale quantity) ↔
      s ∈ sales ∧ s.active = 1 ∧ 0 < s.cmt ∧ 0 < s.scm ∧ s.cmt ≤ quantity := by
  rw [List.mem_filter, isApplicableSale, decide_eq_true_eq]

/-- Characterization of the best-sale selection loop: either no tier in the
list strictly beats the running total and the accumulator is unchanged, or
the loop returns the first tier achieving the (strictly beating) minimum. -/
lemma bestStep_foldl_spec (p : ℚ) (q : ℕ) :
    ∀ (l : List SaleData) (a : Option SaleData) (v : ℚ),
      (l.foldl (bestStep p q) (a, v) = (a, v) ∧ ∀ s ∈ l, v ≤ saleTotal p q s) ∨
      (∃ w, w ∈ l ∧ l.foldl (bestStep p q) (a, v) = (some w, saleTotal p q w) ∧
        saleTotal p q w < v ∧ (∀ s ∈ l, saleTotal p q w ≤ saleTotal p q s) ∧
        l.find? (fun s => decide (saleTotal p q s = saleTotal p q w)) = some w) := by
  intro l
  induction l with
  | nil => intro a v; left; exact ⟨rfl, by simp⟩
  | cons s rest ih =>
    intro a v
    by_cases hlt : saleTotal p q s < v
    · have hstep : bestStep p q (a, v) s = (some s, saleTotal p q s) := by
        simp [bestStep, hlt]
      rcases ih (some s) (saleTotal p q s) with ⟨heq, hall⟩ | ⟨w, hw, heq, hlt2, hall, hfind⟩
      · right
        refine ⟨s, List.mem_cons_self s rest, ?_, hlt, ?_, ?_⟩
        · rw [List.foldl_cons, hstep, heq]
        · intro s' hs'
          rcases List.mem_cons.mp hs' with rfl | h
          · exact le_refl _
          · exact hall s' h
        · rw [List.find?_cons_of_pos]
          simp
      · right
        refine ⟨w, List.mem_cons_of_mem _ hw, ?_, lt_trans hlt2 hlt, ?_, ?_⟩
        · rw [List.foldl_cons, hstep, heq]
        · intro s' hs'
          rcases List.mem_cons.mp hs' with rfl | h
          · exact le_of_lt hlt2
          · exact hall s' h
        · rw [List.find?_cons_of_neg, hfind]
          simp
          exact (ne_of_gt hlt2)
    · have hstep : bestStep p q (a, v) s = (a, v) := by
        simp [bestStep, hlt]
      have hvs : v ≤ saleTotal p q s := le_of_not_lt hlt
      rcases ih a v with ⟨heq, hall⟩ | ⟨w, hw, heq, hlt2, hall, hfind⟩
      · left
        refine ⟨by rw [List.foldl_cons, hstep, heq], ?_⟩
        intro s' hs'
        rcases List.mem_cons.mp hs' with rfl | h
        · exact hvs
        · exact hall s' h
      · right
        refine ⟨w, List.mem_cons_of_mem _ hw, ?_, hlt2, ?_, ?_⟩
        · rw [List.foldl_cons, hstep, heq]
        · intro s' hs'
          rcases List.mem_cons.mp hs' with rfl | h
          · exact le_of_lt (lt_of_lt_of_le hlt2 hvs)
          · exact hall s' h
        · rw [List.find?_cons_of_neg, hfind]
          simp
          exact ne_of_gt (lt_of_lt_of_le hlt2 hvs)

/-- C1: for every quantity `q ≥ 1`, regular unit price `p`, and applicable
uncapped tier, the calculator prices the tier as
`⌊q / cmt⌋ * scm + (q mod cmt) * p` (leftover units below one full bundle
at the regular rate); with `p = 6` and a buy-2-for-10 tier, `q = 2` gives
total 10 and unit price 5, `q = 3` gives 16, `q = 4` gives 20. -/
theorem claim_C1_uncapped_pricing :
    (∀ (q : ℕ) (p : ℚ) (s : SaleData), 1 ≤ q → s.active = 1 → 0 < s.cmt →
        0 < s.scm → s.cmt ≤ q → (s.max_in_doc = none ∨ s.max_in_doc = some 0) →
        saleTotal p q s = ((q / s.cmt : ℕ) : ℚ) * s.scm + ((q % s.cmt : ℕ) : ℚ) * p) ∧
    (calculateBestPrice prod6tier2for10 2).totalPrice = 10 ∧
    (calculateBestPrice prod6tier2for10 2).unitPrice = 5 ∧
    (calculateBestPrice prod6tier2for10 3).totalPrice = 16 ∧
    (calculateBestPrice prod6tier2for10 4).totalPrice = 20 := by
  refine ⟨?_, ?_, ?_, ?_, ?_⟩
  · intro q p s _ _ _ _ _ hcap
    rcases hcap with h | h <;> simp [saleTotal, h]
  all_goals
    norm_num [calculateBestPrice, bestSaleLoop, bestStep, saleTotal, isApplicableSale,
      isPotentialSale, effectiveMaxQty, pickPotential, tier2for10, prod6tier2for10,
      List.filter, List.foldl]

theorem claim_C1_witness :
    saleTotal 6 5 tier2for10 =
      ((5 / tier2for10.cmt : ℕ) : ℚ) * tier2for10.scm + ((5 % tier2for10.cmt : ℕ) : ℚ) * 6 :=
  claim_C1_uncapped_pricing.1 5 6 tier2for10 (by decide) (by decide) (by decide)
    (by decide) (by decide) (Or.inl rfl)

/-- C2: for a tier carrying a cap `max_in_doc = m > 0`, the calculator
prices the tier as `⌊min(q,m)/cmt⌋ * scm + (min(q,m) mod cmt) * p +
(q - min(q,m)) * p`; with `p = 6` and a buy-3-for-15 tier capped at 6,
`q = 6` gives 30 and `q = 9` gives 48. -/
theorem claim_C2_capped_pricing :
    (∀ (q : ℕ) (p : ℚ) (s : SaleData) (m : ℕ), s.active = 1 → 0 < s.cmt →
        0 < s.scm → s.cmt ≤ q → s.max_in_doc = some m → 0 < m →
        saleTotal p q s = ((min q m / s.cmt : ℕ) : ℚ) * s.scm +
          ((min q m % s.cmt : ℕ) : ℚ) * p + ((q - min q m : ℕ) : ℚ) * p) ∧
    (calculateBestPrice prod6tier3for15max6 6).totalPrice = 30 ∧
    (calculateBestPrice prod6tier3for15max6 9).totalPrice = 48 := by
  refine ⟨?_, ?_, ?_⟩
  · intro q p s m _ _ _ _ hm hmpos
    simp [saleTotal, hm, hmpos]
  all_goals
    norm_num [calculateBestPrice, bestSaleLoop, bestStep, saleTotal, isApplicableSale,
      isPotentialSale, effectiveMaxQty, pickPotential, tier3for15max6, prod6tier3for15max6,
      List.filter, List.foldl]

theorem claim_C2_witness :
    saleTotal 6 9 tier3for15max6 =
      ((min 9 6 / tier3for15max6.cmt : ℕ) : ℚ) * tier3for15max6.scm +
        ((min 9 6 % tier3for15max6.cmt : ℕ) : ℚ) * 6 + ((9 - min 9 6 : ℕ) : ℚ) * 6 :=
  claim_C2_capped_pricing.1 9 6 tier3for15max6 6 (by decide) (by decide) (by decide)
    (by decide) rfl (by decide)

/-- C3: the winning tier is selected by strict minimisation over applicable
tiers (applicability = active, positive threshold and bundle price, and
enough quantity — club-only tiers are not excluded); a tier is applied only
when its total is strictly below the regular total, ties keep the first
tier found, and a win returns `totalPrice` = winning total and
`unitPrice` = winning total / quantity. -/
theorem claim_C3_strict_min_selection (product : RamiLevyProductData) (quantity : ℕ)
    (hq : quantity ≠ 0)
    (hbeat : ∃ s ∈ product.sale.filter (isApplicableSale quantity),
        saleTotal (product.price.getD 0) quantity s < (product.price.getD 0) * quantity) :
    (∀ s, s ∈ product.sale.filter (isApplicableSale quantity) ↔
        s ∈ product.sale ∧ s.active = 1 ∧ 0 < s.cmt ∧ 0 < s.scm ∧ s.cmt ≤ quantity) ∧
    ∃ w ∈ product.sale.filter (isApplicableSale quantity),
      (calculateBestPrice product quantity).totalPrice =
          saleTotal (product.price.getD 0) quantity w ∧
      (calculateBestPrice product quantity).totalPrice <
          (product.price.getD 0) * quantity ∧
      (∀ s ∈ product.sale.filter (isApplicableSale quantity),
          (calculateBestPrice product quantity).totalPrice ≤
            saleTotal (product.price.getD 0) quantity s) ∧
      (calculateBestPrice product quantity).unitPrice =
          (calculateBestPrice product quantity).totalPrice / (quantity : ℚ) ∧
      (calculateBestPrice product quantity).saleInfo =
          some (SaleInfo.applied w ((product.price.getD 0) * quantity -
            (calculateBestPrice product quantity).totalPrice)) ∧
      (product.sale.filter (isApplicableSale quantity)).find?
          (fun s => decide (saleTotal (product.price.getD 0) quantity s =
            (calculateBestPrice product quantity).totalPrice)) = some w := by
  refine ⟨fun s => mem_applicable_iff quantity product.sale s, ?_⟩
  obtain ⟨s₀, hs₀, hs₀lt⟩ := hbeat
  have hmem : s₀ ∈ product.sale := (List.mem_filter.mp hs₀).1
  have hsale_ne : product.sale.isEmpty = false := by
    simp only [List.isEmpty_eq_false_iff_exists_mem]
    exact ⟨s₀, hmem⟩
  have happ_ne : (product.sale.filter (isApplicableSale quantity)).isEmpty = false := by
    simp only [List.isEmpty_eq_false_iff_exists_mem]
    exact ⟨s₀, hs₀⟩
  rcases bestStep_foldl_spec (product.price.getD 0) quantity
      (product.sale.filter (isApplicableSale quantity)) none
      ((product.price.getD 0) * quantity) with
    ⟨_, hall⟩ | ⟨w, hw, heq, hwlt, hall, hfind⟩
  · exact absurd (hall s₀ hs₀) (not_le.mpr hs₀lt)
  · have hcbp : calculateBestPrice product quantity =
        { unitPrice := saleTotal (product.price.getD 0) quantity w / (quantity : ℚ),
          totalPrice := saleTotal (product.price.getD 0) quantity w,
          saleInfo := some (.applied w ((product.price.getD 0) * quantity -
            saleTotal (product.price.getD 0) quantity w)) } := by
      have heqLoop : bestSaleLoop (product.price.getD 0) quantity
          ((product.price.getD 0) * quantity)
          (product.sale.filter (isApplicableSale quantity)) =
          (some w, saleTotal (product.price.getD 0) quantity w) := heq
      have hq2 : (quantity == 0) = false := by simpa using hq
      unfold calculateBestPrice
      simp only [hsale_ne, hq2, happ_ne, Bool.or_self, Bool.false_eq_true, if_false, heqLoop]
    exact ⟨w, hw, by rw [hcbp], by rw [hcbp]; exact hwlt, by rw [hcbp]; exact hall,
      by rw [hcbp], by rw [hcbp], by rw [hcbp]; exact hfind⟩

/-- C4: whenever no applicable tier strictly beats the regular total, the
calculator returns exactly the regular pricing (`totalPrice = p * q`,
`unitPrice = p`), whether or not a potential-sale hint is attached. -/
theorem claim_C4_no_beating_tier_regular_price (product : RamiLevyProductData)
    (quantity : ℕ)
    (hnobeat : ∀ s ∈ product.sale.filter (isApplicableSale quantity),
        (product.price.getD 0) * quantity ≤ saleTotal (product.price.getD 0) quantity s) :
    (calculateBestPrice product quantity).totalPrice =
        (product.price.getD 0) * quantity ∧
    (calculateBestPrice product quantity).unitPrice = product.price.getD 0 := by
  unfold calculateBestPrice
  by_cases h0 : (product.sale.isEmpty || quantity == 0) = true
  · rw [if_pos h0]; exact ⟨rfl, rfl⟩
  · rw [if_neg h0]
    by_cases happ : (product.sale.filter (isApplicableSale quantity)).isEmpty = true
    · rw [if_pos happ]; exact ⟨rfl, rfl⟩
    · rw [if_neg happ]
      rcases bestStep_foldl_spec (product.price.getD 0) quantity
          (product.sale.filter (isApplicableSale quantity)) none
          ((product.price.getD 0) * quantity) with
        ⟨heq, _⟩ | ⟨w, hw, _, hwlt, _, _⟩
      · rw [bestSaleLoop, heq]
        rcases product.sale.filter (isPotentialSale quantity) with _ | ⟨h, tl⟩
        · exact ⟨rfl, rfl⟩
        · exact ⟨rfl, rfl⟩
      · exact absurd (hnobeat w hw) (not_le.mpr hwlt)

theorem claim_C3_witness :
    ∃ w ∈ prod6tier2for10.sale.filter (isApplicableSale 2),
      (calculateBestPrice prod6tier2for10 2).totalPrice =
          saleTotal (prod6tier2for10.price.getD 0) 2 w ∧
      (calculateBestPrice prod6tier2for10 2).totalPrice <
          (prod6tier2for10.price.getD 0) * 2 ∧
      (∀ s ∈ prod6tier2for10.sale.filter (isApplicableSale 2),
          (calculateBestPrice prod6tier2for10 2).totalPrice ≤
            saleTotal (prod6tier2for10.price.getD 0) 2 s) ∧
      (calculateBestPrice prod6tier2for10 2).unitPrice =
          (calculateBestPrice prod6tier2for10 2).totalPrice / ((2 : ℕ) : ℚ) ∧
      (calculateBestPrice prod6tier2for10 2).saleInfo =
          some (SaleInfo.applied w ((prod6tier2for10.price.getD 0) * 2 -
            (calculateBestPrice prod6tier2for10 2).totalPrice)) ∧
      (prod6tier2for10.sale.filter (isApplicableSale 2)).find?
          (fun s => decide (saleTotal (prod6tier2for10.price.getD 0) 2 s =
            (calculateBestPrice prod6tier2for10 2).totalPrice)) = some w :=
  (claim_C3_strict_min_selection prod6tier2for10 2 (by decide)
    ⟨tier2for10, by simp [prod6tier2for10, isApplicableSale, tier2for10],
      by norm_num [saleTotal, tier2for10, prod6tier2for10]⟩).2

theorem claim_C4_witness :
    (calculateBestPrice prod6tier2for10 1).totalPrice =
        (prod6tier2for10.price.getD 0) * 1 ∧
    (calculateBestPrice prod6tier2for10 1).unitPrice = prod6tier2for10.price.getD 0 :=
  claim_C4_no_beating_tier_regular_price prod6tier2for10 1
    (by simp [prod6tier2for10, isApplicableSale, tier2for10])


/-! ## Claim C9: search-query sanitization idempotence -/

lemma head?_dropWhile_false (p : Char → Bool) (l : List Char) :
    ∀ c, (l.dropWhile p).head? = some c → p c = false := by
  induction l with
  | nil => intro c h; simp at h
  | cons a t ih =>
    intro c h
    rw [List.dropWhile_cons] at h
    by_cases hp : p a
    · rw [if_pos hp] at h; exact ih c h
    · rw [if_neg hp] at h
      simp only [List.head?_cons, Option.some.injEq] at h
      rw [← h]
      simpa using hp

lemma mem_of_mem_trimChars {l : List Char} {c : Char} (h : c ∈ trimChars l) : c ∈ l := by
  unfold trimChars at h
  rw [List.mem_reverse] at h
  have h2 := ((List.dropWhile_suffix _).sublist.subset) h
  rw [List.mem_reverse] at h2
  exact ((List.dropWhile_suffix _).sublist.subset) h2

lemma head?_trimChars (l : List Char) (c : Char)
    (h : (trimChars l).head? = some c) : c.isWhitespace = false := by
  unfold trimChars at h
  set A := l.dropWhile Char.isWhitespace with hA
  have hXne : ((A.reverse.dropWhile Char.isWhitespace).reverse : List Char) ≠ [] := by
    intro hh; rw [hh] at h; simp at h
  obtain ⟨t, ht⟩ := List.dropWhile_suffix (l := A.reverse) Char.isWhitespace
  have hAeq : A = (A.reverse.dropWhile Char.isWhitespace).reverse ++ t.reverse := by
    have h3 := congrArg List.reverse ht
    simpa [List.reverse_append] using h3.symm
  have hhead : A.head? = some c := by
    rw [hAeq, List.head?_append_of_ne_nil _ hXne, h]
  exact head?_dropWhile_false _ l c hhead

lemma dropWhile_eq_self_of_head (p : Char → Bool) (l : List Char)
    (h : ∀ c, l.head? = some c → p c = false) : l.dropWhile p = l := by
  cases l with
  | nil => rfl
  | cons a t =>
    rw [List.dropWhile_cons, if_neg]
    simp [h a rfl]

lemma head?_take200 (l : List Char) : (l.take 200).head? = l.head? := by
  cases l <;> rfl

/-- A valid query's result record and the length facts behind validity. -/
lemma validateSearchQuery_valid (query : String)
    (hv : (validateSearchQuery query).isValid = true) :
    validateSearchQuery query =
      { isValid := true, sanitized := sanitizeSearchQuery query, error := none } ∧
    sanitizeSearchQuery query ≠ "" ∧ 2 ≤ (sanitizeSearchQuery query).length := by
  unfold validateSearchQuery at hv ⊢
  by_cases h1 : query = ""
  · simp [if_pos h1] at hv
  · by_cases h2 : (sanitizeSearchQuery query).length = 0
    · simp [if_neg h1, h2] at hv
    · by_cases h3 : (sanitizeSearchQuery query).length < 2
      · simp [if_neg h1, h2, h3] at hv
      · refine ⟨by simp [if_neg h1, h2, h3], ?_, by omega⟩
        intro he
        apply h2
        rw [he]
        rfl

/-- C9 amended: sanitization is idempotent (and re-validation reproduces
the result) for every accepted query whose returned sanitized value does
not end in whitespace; the 200-character truncation, applied after
trimming, can otherwise expose trailing whitespace. -/
theorem claim_C9_sanitize_idempotent (query : String)
    (hv : (validateSearchQuery query).isValid = true)
    (hws : ∀ c, (validateSearchQuery query).sanitized.data.getLast? = some c →
      c.isWhitespace = false) :
    sanitizeSearchQuery ((validateSearchQuery query).sanitized) =
      (validateSearchQuery query).sanitized ∧
    validateSearchQuery ((validateSearchQuery query).sanitized) =
      validateSearchQuery query := by
  obtain ⟨hr, hne, hlen⟩ := validateSearchQuery_valid query hv
  rw [hr] at hws ⊢
  simp only at hws ⊢
  have hdata : (sanitizeSearchQuery query).data =
      (trimChars (stripQueryChars query.data)).take 200 := rfl
  have hmemstrip : ∀ c ∈ (sanitizeSearchQuery query).data,
      c ∈ stripQueryChars query.data := by
    intro c hc
    rw [hdata] at hc
    exact mem_of_mem_trimChars (List.take_subset _ _ hc)
  have hall : ∀ a ∈ (sanitizeSearchQuery query).data,
      (!(a == '<' || a == '>')) = true ∧ (!(a == aposChar || a == '"')) = true ∧
        (!(a == backslashChar)) = true := by
    intro a ha
    have h := hmemstrip a ha
    unfold stripQueryChars at h
    have hb := List.mem_filter.mp h
    have hq2 := List.mem_filter.mp hb.1
    have ha2 := List.mem_filter.mp hq2.1
    exact ⟨ha2.2, hq2.2, hb.2⟩
  have hstrip : stripQueryChars (sanitizeSearchQuery query).data =
      (sanitizeSearchQuery query).data := by
    unfold stripQueryChars
    rw [List.filter_eq_self.mpr (fun a ha => (hall a ha).1),
      List.filter_eq_self.mpr (fun a ha => (hall a ha).2.1),
      List.filter_eq_self.mpr (fun a ha => (hall a ha).2.2)]
  have hhead : ∀ c, (sanitizeSearchQuery query).data.head? = some c →
      c.isWhitespace = false := by
    intro c hc
    rw [hdata, head?_take200] at hc
    exact head?_trimChars _ _ hc
  have hdrop1 : (sanitizeSearchQuery query).data.dropWhile Char.isWhitespace =
      (sanitizeSearchQuery query).data := dropWhile_eq_self_of_head _ _ hhead
  have hlast : ∀ c, ((sanitizeSearchQuery query).data.reverse).head? = some c →
      c.isWhitespace = false := by
    intro c hc
    rw [List.head?_reverse] at hc
    exact hws c hc
  have hdrop2 : ((sanitizeSearchQuery query).data.reverse).dropWhile Char.isWhitespace =
      (sanitizeSearchQuery query).data.reverse := dropWhile_eq_self_of_head _ _ hlast
  have htrim : trimChars (sanitizeSearchQuery query).data =
      (sanitizeSearchQuery query).data := by
    unfold trimChars
    rw [hdrop1, hdrop2, List.reverse_reverse]
  have htake : ((sanitizeSearchQuery query).data).take 200 =
      (sanitizeSearchQuery query).data := by
    apply List.take_of_length_le
    rw [hdata]
    exact List.length_take_le 200 (trimChars (stripQueryChars query.data))
  have hsan : sanitizeSearchQuery (sanitizeSearchQuery query) = sanitizeSearchQuery query := by
    have hd : (sanitizeSearchQuery (sanitizeSearchQuery query)).data =
        (sanitizeSearchQuery query).data := by
      show (trimChars (stripQueryChars (sanitizeSearchQuery query).data)).take 200 = _
      rw [hstrip, htrim, htake]
    cases hq1 : sanitizeSearchQuery (sanitizeSearchQuery query)
    cases hq2 : sanitizeSearchQuery query
    rw [hq1, hq2] at hd
    exact congrArg String.mk (by simpa using hd)
  refine ⟨hsan, ?_⟩
  have h2' : ¬ ((sanitizeSearchQuery query).length = 0) := by omega
  have h3' : ¬ ((sanitizeSearchQuery query).length < 2) := by omega
  unfold validateSearchQuery
  rw [if_neg hne]
  simp only [hsan, h2', h3', if_false]

set_option maxRecDepth 4000 in
/-- C9 counterexample: a valid 201-character query whose sanitized value
(truncated to 200 characters after trimming) ends in a space, so
re-sanitizing it trims that space and yields a different string. -/
theorem claim_C9_counterexample :
    (validateSearchQuery longQueryWithTrailingSpace).isValid = true ∧
    sanitizeSearchQuery ((validateSearchQuery longQueryWithTrailingSpace).sanitized) ≠
      (validateSearchQuery longQueryWithTrailingSpace).sanitized := by
  decide

theorem claim_C9_witness :
    sanitizeSearchQuery ((validateSearchQuery "hello").sanitized) =
      (validateSearchQuery "hello").sanitized ∧
    validateSearchQuery ((validateSearchQuery "hello").sanitized) =
      validateSearchQuery "hello" :=
  claim_C9_sanitize_idempotent "hello" (by decide) (by decide)


/-! ## Claim C10: replacement-cart payloads drop unavailable items -/

lemma mem_setKey {acc : List (String × ℕ)} {k : String} {v : ℕ} {kv : String × ℕ}
    (h : kv ∈ setKey acc k v) : kv.1 = k ∨ kv ∈ acc := by
  unfold setKey at h
  by_cases ha : acc.any (fun kv => kv.1 == k)
  · rw [if_pos ha] at h
    obtain ⟨p, hp, hpe⟩ := List.mem_map.mp h
    by_cases hpk : p.1 == k
    · rw [if_pos hpk] at hpe
      left
      rw [← hpe]
    · rw [if_neg hpk] at hpe
      right
      rw [← hpe]
      exact hp
  · rw [if_neg ha] at h
    rcases List.mem_append.mp h with h1 | h1
    · right; exact h1
    · left
      simp only [List.mem_singleton] at h1
      rw [h1]

lemma foldl_setKey_key_mem (g : CartItem → ℕ) :
    ∀ (l : List CartItem) (acc : List (String × ℕ)) (kv : String × ℕ),
      kv ∈ l.foldl (fun a item => setKey a item.productId (g item)) acc →
      (∃ kv0 ∈ acc, kv0.1 = kv.1) ∨ ∃ item ∈ l, item.productId = kv.1 := by
  intro l
  induction l with
  | nil => intro acc kv h; left; exact ⟨kv, h, rfl⟩
  | cons i t ih =>
    intro acc kv h
    rw [List.foldl_cons] at h
    rcases ih (setKey acc i.productId (g i)) kv h with ⟨kv0, hkv0, hfst⟩ | ⟨item, hmem, hpid⟩
    · rcases mem_setKey hkv0 with hk | hmem0
      · right
        exact ⟨i, List.mem_cons_self i t, by rw [hk] at hfst; exact hfst⟩
      · left; exact ⟨kv0, hmem0, hfst⟩
    · right; exact ⟨item, List.mem_cons_of_mem _ hmem, hpid⟩

/-- C10: both replacement-cart payloads are rebuilt from only those
current cart items whose id does not contain `-unavailable` (and, for
`removeFromCart`, is not the targeted id); consequently every
store-unavailable item (whose product id is not shared with a retained
item) is silently dropped from the pushed replacement cart. -/
theorem claim_C10_rebuild_drops_unavailable (cartItemId : String) (q : ℕ)
    (items : List CartItem) :
    (∀ kv ∈ removeRebuildItems cartItemId items,
        ∃ item ∈ items, item.productId = kv.1 ∧
          strIncludes item.id "-unavailable" = false ∧ item.id ≠ cartItemId) ∧
    (∀ kv ∈ updateRebuildItems cartItemId q items,
        ∃ item ∈ items, item.productId = kv.1 ∧
          strIncludes item.id "-unavailable" = false) ∧
    (∀ item ∈ items, strIncludes item.id "-unavailable" = true →
      (∀ j ∈ items, j.productId = item.productId →
        strIncludes j.id "-unavailable" = true) →
      (∀ kv ∈ removeRebuildItems cartItemId items, kv.1 ≠ item.productId) ∧
      (∀ kv ∈ updateRebuildItems cartItemId q items, kv.1 ≠ item.productId)) := by
  have hrem : ∀ kv ∈ removeRebuildItems cartItemId items,
      ∃ item ∈ items, item.productId = kv.1 ∧
        strIncludes item.id "-unavailable" = false ∧ item.id ≠ cartItemId := by
    intro kv hkv
    unfold removeRebuildItems at hkv
    rcases foldl_setKey_key_mem _ _ _ kv hkv with ⟨kv0, hkv0, _⟩ | ⟨item, hmem, hpid⟩
    · simp at hkv0
    · have hf := List.mem_filter.mp hmem
      have hp := hf.2
      simp only [Bool.and_eq_true, bne_iff_ne, ne_eq, Bool.not_eq_true'] at hp
      exact ⟨item, hf.1, hpid, hp.2, hp.1⟩
  have hupd : ∀ kv ∈ updateRebuildItems cartItemId q items,
      ∃ item ∈ items, item.productId = kv.1 ∧
        strIncludes item.id "-unavailable" = false := by
    intro kv hkv
    unfold updateRebuildItems at hkv
    rcases foldl_setKey_key_mem _ _ _ kv hkv with ⟨kv0, hkv0, _⟩ | ⟨item, hmem, hpid⟩
    · simp at hkv0
    · have hf := List.mem_filter.mp hmem
      have hp := hf.2
      simp only [Bool.not_eq_true'] at hp
      exact ⟨item, hf.1, hpid, hp⟩
  refine ⟨hrem, hupd, ?_⟩
  intro item _ _ hsame
  constructor
  · intro kv hkv hk
    obtain ⟨j, hj, hjpid, hjinc, _⟩ := hrem kv hkv
    have := hsame j hj (by rw [hjpid, hk])
    rw [this] at hjinc
    exact absurd hjinc (by simp)
  · intro kv hkv hk
    obtain ⟨j, hj, hjpid, hjinc⟩ := hupd kv hkv
    have := hsame j hj (by rw [hjpid, hk])
    rw [this] at hjinc
    exact absurd hjinc (by simp)

theorem claim_C10_witness :
    (∀ kv ∈ removeRebuildItems "rami-levy-123" [availCartItem, unavailCartItem],
        kv.1 ≠ unavailCartItem.productId) ∧
    (∀ kv ∈ updateRebuildItems "rami-levy-123" 3 [availCartItem, unavailCartItem],
        kv.1 ≠ unavailCartItem.productId) :=
  (claim_C10_rebuild_drops_unavailable "rami-levy-123" 3
      [availCartItem, unavailCartItem]).2.2 unavailCartItem (by decide) (by decide)
    (by decide)


/-! ## Claim C5: cart accounting invariants -/

lemma mem_toDigitsCore (f : ℕ) :
    ∀ (n : ℕ) (acc : List Char) (c : Char), c ∈ Nat.toDigitsCore 10 f n acc →
      c ∈ acc ∨ ∃ d, d < 10 ∧ c = Nat.digitChar d := by
  induction f with
  | zero => intro n acc c h; left; exact h
  | succ f ih =>
    intro n acc c h
    unfold Nat.toDigitsCore at h
    by_cases h10 : n / 10 = 0
    · rw [if_pos h10] at h
      rcases List.mem_cons.mp h with h1 | h1
      · right; exact ⟨n % 10, Nat.mod_lt _ (by omega), h1⟩
      · left; exact h1
    · rw [if_neg h10] at h
      rcases ih (n / 10) (Nat.digitChar (n % 10) :: acc) c h with h1 | h1
      · rcases List.mem_cons.mp h1 with h2 | h2
        · right; exact ⟨n % 10, Nat.mod_lt _ (by omega), h2⟩
        · left; exact h2
      · right; exact h1

lemma isDigit_of_mem_repr (n : ℕ) (c : Char) (h : c ∈ (Nat.repr n).data) :
    c.isDigit = true := by
  have hr : (Nat.repr n).data = Nat.toDigitsCore 10 (n + 1) n [] := rfl
  rw [hr] at h
  rcases mem_toDigitsCore (n + 1) n [] c h with h1 | ⟨d, hd, hc⟩
  · simp at h1
  · have hall : ∀ d < 10, (Nat.digitChar d).isDigit = true := by decide
    rw [hc]
    exact hall d hd

lemma listIncludes_iff_infix (sub : List Char) :
    ∀ l : List Char, listIncludes sub l = true ↔ sub <:+: l := by
  intro l
  induction l with
  | nil =>
    unfold listIncludes
    rw [List.isEmpty_iff, List.infix_nil]
  | cons a t ih =>
    unfold listIncludes
    rw [Bool.or_eq_true, List.isPrefixOf_iff_prefix, ih, List.infix_cons_iff]

lemma strIncludes_ramiLevyId_false (n : ℕ) :
    strIncludes ("rami-levy-" ++ Nat.repr n) "-unavailable" = false := by
  rw [← Bool.not_eq_true, strIncludes, listIncludes_iff_infix]
  intro hinf
  have hu : 'u' ∈ ("rami-levy-" ++ Nat.repr n).data := hinf.subset (by decide)
  rw [String.data_append] at hu
  rcases List.mem_append.mp hu with h1 | h1
  · simp at h1
  · have := isDigit_of_mem_repr n 'u' h1
    simp at this

lemma strIncludes_unavailable_true (s : String) :
    strIncludes (s ++ "-unavailable") "-unavailable" = true := by
  rw [strIncludes, listIncludes_iff_infix, String.data_append]
  exact (List.suffix_append _ _).isInfix

lemma foldl_add_eq_sum {M : Type} [AddCommMonoid M] {β : Type} (f : β → M) :
    ∀ (l : List β) (init : M), l.foldl (fun s i => s + f i) init = init + (l.map f).sum := by
  intro l
  induction l with
  | nil => intro init; simp
  | cons a t ih => intro init; simp [List.foldl_cons, ih, add_assoc]

/-- The three accounting invariants hold for any reconciled cart. -/
lemma reconcileCart_invariant (store : String) (cartItems : List (String × ℕ))
    (productsData : List RamiLevyProductData) :
    (reconcileCart store cartItems productsData).totalItems =
      (((reconcileCart store cartItems productsData).items).map (fun i => i.quantity)).sum ∧
    (reconcileCart store cartItems productsData).totalPrice =
      ((((reconcileCart store cartItems productsData).items).filter
          (fun i => !(strIncludes i.id "-unavailable"))).map (fun i => i.totalPrice)).sum ∧
    ∀ item ∈ (reconcileCart store cartItems productsData).items,
      strIncludes item.id "-unavailable" = true → item.totalPrice = 0 := by
  unfold reconcileCart
  simp only
  set storeId := store.toNat?.getD 0 with hsid
  set avail := (productsData.filter
      (fun product => product.available_in.contains storeId)).map
      (mkAvailableCartItem cartItems) with havail
  set unavail := (productsData.filter
      (fun product => !(product.available_in.contains storeId))).map
      (mkUnavailableCartItem storeId cartItems) with hunavail
  have hincA : ∀ i ∈ avail, strIncludes i.id "-unavailable" = false := by
    intro i hi
    rw [havail] at hi
    obtain ⟨p, _, hpe⟩ := List.mem_map.mp hi
    rw [← hpe]
    exact strIncludes_ramiLevyId_false p.id
  have hincU : ∀ i ∈ unavail, strIncludes i.id "-unavailable" = true ∧ i.totalPrice = 0 := by
    intro i hi
    rw [hunavail] at hi
    obtain ⟨p, _, hpe⟩ := List.mem_map.mp hi
    constructor
    · rw [← hpe]
      have : (mkUnavailableCartItem storeId cartItems p).id =
          ("rami-levy-" ++ Nat.repr p.id) ++ "-unavailable" := by
        unfold mkUnavailableCartItem
        simp [String.append_assoc]
      rw [this]
      exact strIncludes_unavailable_true _
    · rw [← hpe]
      rfl
  refine ⟨?_, ?_, ?_⟩
  · rw [foldl_add_eq_sum]
    simp
  · rw [foldl_add_eq_sum, List.filter_append, zero_add]
    have h1 : avail.filter (fun i => !(strIncludes i.id "-unavailable")) = avail := by
      apply List.filter_eq_self.mpr
      intro a ha
      simp [hincA a ha]
    have h2 : unavail.filter (fun i => !(strIncludes i.id "-unavailable")) = [] := by
      apply List.filter_eq_nil_iff.mpr
      intro a ha
      simp [(hincU a ha).1]
    rw [h1, h2, List.append_nil]
  · intro item hmem hinc
    rcases List.mem_append.mp hmem with hA | hU
    · rw [hincA item hA] at hinc
      exact absurd hinc (by simp)
    · exact (hincU item hU).2

lemma strOr_one_ne (y : String) : strOr y "1" ≠ "" := by
  unfold strOr
  split
  · simp
  · assumption

/-- C5: every cart returned successfully by the Rami Levy
`getCartContents` satisfies the accounting invariants: `totalItems` sums
all quantities (unavailable lines included), `totalPrice` sums the totals
of the non-flagged lines only, and every `-unavailable`-flagged line has
`totalPrice = 0`. -/
theorem claim_C5_cart_accounting {ρ : Type} (ps : RLParsers ρ) (t : RLTransport ρ)
    (envUserId : Option String) (st : RamiLevyState) (cart : Cart)
    (hsucc : (ramiLevyGetCartContents ps t envUserId st).success = true)
    (hdata : (ramiLevyGetCartContents ps t envUserId st).data = some cart) :
    cart.totalItems = (cart.items.map (fun i => i.quantity)).sum ∧
    cart.totalPrice = ((cart.items.filter
        (fun i => !(strIncludes i.id "-unavailable"))).map (fun i => i.totalPrice)).sum ∧
    ∀ item ∈ cart.items, strIncludes item.id "-unavailable" = true →
      item.totalPrice = 0 := by
  have hemptyInv : emptyILSCart.totalItems =
        ((emptyILSCart.items).map (fun i => i.quantity)).sum ∧
      emptyILSCart.totalPrice = (((emptyILSCart.items).filter
        (fun i => !(strIncludes i.id "-unavailable"))).map (fun i => i.totalPrice)).sum ∧
      ∀ item ∈ emptyILSCart.items, strIncludes item.id "-unavailable" = true →
        item.totalPrice = 0 := by
    refine ⟨rfl, rfl, ?_⟩
    intro item hmem
    simp [emptyILSCart] at hmem
  unfold ramiLevyGetCartContents at hsucc hdata
  rw [if_neg (strOr_one_ne _)] at hsucc hdata
  cases hug : t.userGet ("/v2/site/clubs/customer/" ++
      strOr (strOr ((st.credentials.bind fun c => c.clientId).getD "")
        (envUserId.getD "")) "1") with
  | error e =>
    simp only [hug, Bind.bind, Except.bind, jsTry, createErrorResult] at hsucc
    exact absurd hsucc (by decide)
  | ok r =>
    simp only [hug, Bind.bind, Except.bind] at hsucc hdata
    cases hc : (ps.castUserCart r).cart with
    | none =>
      simp only [hc, jsTry, pure, Except.pure, createSuccessResult,
        Option.some.injEq] at hsucc hdata
      rw [← hdata]
      exact hemptyInv
    | some cart0 =>
      simp only [hc] at hsucc hdata
      cases hi : cart0.items with
      | none =>
        simp only [hi, jsTry, pure, Except.pure, createSuccessResult,
          Option.some.injEq] at hsucc hdata
        rw [← hdata]
        exact hemptyInv
      | some cartItems =>
        simp only [hi] at hsucc hdata
        by_cases hpe : (cartItems.map (fun kv => kv.1)).isEmpty = true
        · simp only [hpe, if_true, jsTry, pure, Except.pure, createSuccessResult,
            Option.some.injEq] at hsucc hdata
          rw [← hdata]
          exact hemptyInv
        · simp only [hpe, if_false, Bool.false_eq_true] at hsucc hdata
          cases hpost : t.post "/items"
              (.items (String.intercalate "," (cartItems.map (fun kv => kv.1))) "id") with
          | error e2 =>
            simp only [hpost, Bind.bind, Except.bind, jsTry,
              createErrorResult] at hsucc
            exact absurd hsucc (by decide)
          | ok r2 =>
            simp only [hpost, Bind.bind, Except.bind] at hsucc hdata
            cases hitems : (ps.castItems r2).data with
            | none =>
              simp only [hitems, jsTry, pure, Except.pure,
                createErrorResult] at hsucc
              exact absurd hsucc (by decide)
            | some productsData =>
              simp only [hitems, jsTry, pure, Except.pure, createSuccessResult,
                Option.some.injEq] at hsucc hdata
              rw [← hdata]
              exact reconcileCart_invariant st.store cartItems productsData

theorem claim_C5_witness :
    emptyILSCart.totalItems = ((emptyILSCart.items).map (fun i => i.quantity)).sum ∧
    emptyILSCart.totalPrice = (((emptyILSCart.items).filter
        (fun i => !(strIncludes i.id "-unavailable"))).map (fun i => i.totalPrice)).sum ∧
    ∀ item ∈ emptyILSCart.items, strIncludes item.id "-unavailable" = true →
      item.totalPrice = 0 :=
  claim_C5_cart_accounting (ρ := Unit)
    { castCatalog := fun _ => ⟨[], 0, 200⟩,
      castCart := fun _ => ⟨[], 200⟩,
      castUserCart := fun _ => ⟨none⟩,
      castItems := fun _ => ⟨none⟩ }
    { post := fun _ _ => .ok (), userGet := fun _ => .ok () }
    none { } emptyILSCart rfl rfl


/-! ## Claim C8: constructor fail-fast and the factory boundary -/

/-- C8 counterexample: with no credentials configured and an empty cache,
`getAdapter "rami-levy"` does not return a result-shaped error — it throws
(a wrapped, descriptive `Error`), so the claim that the construction
failure is turned into a result-shaped error at the factory boundary is
false on the code. -/
theorem claim_C8_counterexample :
    getAdapter [] "rami-levy" none =
      Except.error
        "Failed to initialize rami-levy adapter: Rami Levy adapter requires API key, ecom token, and cookie credentials" ∧
    ∀ r, getAdapter [] "rami-levy" none ≠ Except.ok r := by
  constructor
  · rfl
  · intro r h
    rw [show getAdapter [] "rami-levy" none = Except.error
        "Failed to initialize rami-levy adapter: Rami Levy adapter requires API key, ecom token, and cookie credentials"
      from rfl] at h
    exact Except.noConfusion h

/-- C8 amended: the Rami Levy constructor fails fast (throws) whenever any
of the three credentials is missing, and `getAdapter` catches the
construction failure and re-throws it wrapped in a descriptive `Error`
naming the adapter and the underlying message; the result-shaping happens
in the tool layer above, not at the factory boundary. -/
theorem claim_C8_failfast_and_descriptive_wrapping
    (credentials : Option WebsiteCredentials)
    (cache : List (String × FactoryAdapter)) (env : Option EnvVars) :
    ((¬ truthyOptStr (credentials.bind (fun c => c.apiKey)) = true ∨
      ¬ truthyOptStr (credentials.bind (fun c => c.accessToken)) = true ∨
      ¬ truthyOptStr (credentials.bind (fun c => c.refreshToken)) = true) →
      ∃ msg, mkRamiLevyAdapter credentials = .error msg) ∧
    (cache.find? (fun kv => kv.1 == "rami-levy") = none →
      ∀ msg, mkRamiLevyAdapter (getRamiLevyCredentials env) = .error msg →
      getAdapter cache "rami-levy" env =
        .error ("Failed to initialize rami-levy adapter: " ++ msg)) := by
  constructor
  · intro hmiss
    unfold mkRamiLevyAdapter
    by_cases h1 : credentials.isNone = true
    · rw [if_pos h1]; exact ⟨_, rfl⟩
    · rw [if_neg h1]
      by_cases h2 : truthyOptStr (credentials.bind fun c => c.apiKey) = true
      · rw [if_neg (not_not_intro h2)]
        by_cases h3 : truthyOptStr (credentials.bind fun c => c.accessToken) = true
        · rw [if_neg (not_not_intro h3)]
          by_cases h4 : truthyOptStr (credentials.bind fun c => c.refreshToken) = true
          · rcases hmiss with h | h | h <;> contradiction
          · rw [if_pos h4]; exact ⟨_, rfl⟩
        · rw [if_pos h3]; exact ⟨_, rfl⟩
      · rw [if_pos h2]; exact ⟨_, rfl⟩
  · intro hfind msg hmk
    unfold getAdapter
    rw [hfind]
    simp only [if_pos rfl, hmk, Except.map, if_true]
    rfl

theorem claim_C8_witness :
    (∃ msg, mkRamiLevyAdapter none = Except.error msg) ∧
    getAdapter [] "rami-levy" none =
      Except.error ("Failed to initialize rami-levy adapter: " ++
        "Rami Levy adapter requires API key, ecom token, and cookie credentials") :=
  ⟨(claim_C8_failfast_and_descriptive_wrapping none [] none).1 (Or.inl (by decide)),
    (claim_C8_failfast_and_descriptive_wrapping none [] none).2 rfl _ rfl⟩


/-! ## Claim C6: no exception crosses the adapter boundary -/

lemma isErrorResult_createErrorResult {T : Type} (w e : String) :
    isErrorResult (createErrorResult (T := T) w e) :=
  ⟨rfl, e, rfl⟩

/-- The Rami Levy `getCartContents` under a rejecting user-API call. -/
lemma ramiLevyGetCartContents_throwing {ρ : Type} (ps : RLParsers ρ)
    (t : RLTransport ρ) (envUserId : Option String) (st : RamiLevyState)
    (m : String)
    (hm : t.userGet ("/v2/site/clubs/customer/" ++
      strOr (strOr ((st.credentials.bind (fun c => c.clientId)).getD "")
        (envUserId.getD "")) "1") = .error m) :
    ramiLevyGetCartContents ps t envUserId st =
      createErrorResult st.website ("Failed to get Rami Levy cart contents: " ++ m) := by
  unfold ramiLevyGetCartContents
  rw [if_neg (strOr_one_ne _)]
  simp only [hm, Bind.bind, Except.bind, jsTry]

/-- C6: every public adapter method of both adapters, run against
transports that reject every call, resolves to a `{success: false,
error: ...}` result — no exception crosses the adapter boundary (in the
embedding, the methods are total functions into the result type). -/
theorem claim_C6_result_never_throws
    {ρ ρ2 σ : Type} (ps : RLParsers ρ) (t : RLTransport ρ)
    (sps : ShufersalParsers ρ2 σ) (st2 : ShufersalTransport ρ2 σ)
    (parseURL : String → Option ParsedUrl)
    (supplyAt : String) (envUserId envCsrf envCookie : Option String)
    (st : RamiLevyState) (sst : ShufersalState)
    (options : ProductSearchOptions) (productId cartItemId : String)
    (quantity : ℕ) (variant : Option String)
    (hpost : ∀ e p, ∃ m, t.post e p = .error m)
    (hget : ∀ e, ∃ m, t.userGet e = .error m)
    (hsget : ∀ e prms, ∃ m, st2.get e prms = .error m)
    (hscart : ∀ b, ∃ m, st2.cartPost b = .error m) :
    isErrorResult (ramiLevySearchProducts ps t parseURL st options) ∧
    isErrorResult (ramiLevyAddToCart ps t supplyAt st productId quantity variant) ∧
    isErrorResult (ramiLevyRemoveFromCart ps t supplyAt envUserId st cartItemId) ∧
    isErrorResult (ramiLevyUpdateCartQuantity ps t supplyAt envUserId st cartItemId quantity) ∧
    isErrorResult (ramiLevyGetCartContents ps t envUserId st) ∧
    isErrorResult (shufersalSearchProducts sps st2 parseURL sst options) ∧
    isErrorResult (shufersalAddToCart sps st2 envCsrf envCookie sst productId quantity variant) ∧
    isErrorResult (shufersalRemoveFromCart sst) ∧
    isErrorResult (shufersalUpdateCartQuantity sst) ∧
    isErrorResult (shufersalGetCartContents sst) := by
  obtain ⟨m0, hm0⟩ := hget ("/v2/site/clubs/customer/" ++
    strOr (strOr ((st.credentials.bind (fun c => c.clientId)).getD "")
      (envUserId.getD "")) "1")
  have hgc := ramiLevyGetCartContents_throwing ps t envUserId st m0 hm0
  refine ⟨?_, ?_, ?_, ?_, ?_, ?_, ?_, ?_, ?_, ?_⟩
  · obtain ⟨m, hm⟩ := hpost "/catalog"
      (.catalog { q := options.query, store := st.store, aggs := 1 })
    unfold ramiLevySearchProducts
    simp only [hm, Bind.bind, Except.bind, jsTry]
    exact isErrorResult_createErrorResult _ _
  · obtain ⟨m, hm⟩ := hpost "/v2/cart"
      (.cart { store := st.store, isClub := 0, supplyAt := supplyAt,
               items := [(productId, Nat.repr quantity)] })
    unfold ramiLevyAddToCart
    simp only [hm, Bind.bind, Except.bind, jsTry]
    exact isErrorResult_createErrorResult _ _
  · unfold ramiLevyRemoveFromCart
    simp only [hgc, createErrorResult, jsTry, pure, Except.pure, if_pos]
    exact isErrorResult_createErrorResult _ _
  · unfold ramiLevyUpdateCartQuantity
    simp only [hgc, createErrorResult, jsTry, pure, Except.pure, if_pos]
    exact isErrorResult_createErrorResult _ _
  · rw [hgc]
    exact isErrorResult_createErrorResult _ _
  · obtain ⟨m, hm⟩ := hsget "/search/results" [("q", options.query), ("limit", "20")]
    unfold shufersalSearchProducts
    simp only [hm, Bind.bind, Except.bind, jsTry]
    exact isErrorResult_createErrorResult _ _
  · unfold shufersalAddToCart
    by_cases hcred :
        strOr ((sst.credentials.bind (fun c => c.apiKey)).getD "") (envCsrf.getD "") = "" ∨
        strOr ((sst.credentials.bind (fun c => c.accessToken)).getD "") (envCookie.getD "") = ""
    · rw [if_pos hcred]
      simp only [jsTry, pure, Except.pure]
      exact isErrorResult_createErrorResult _ _
    · rw [if_neg hcred]
      obtain ⟨m, hm⟩ := hscart
        { productCodePost := productId, productCode := productId,
          sellingMethod := "BY_UNIT", qty := Nat.repr quantity,
          frontQuantity := Nat.repr quantity, comment := "", affiliateCode := "" }
      simp only [hm, Bind.bind, Except.bind, jsTry]
      exact isErrorResult_createErrorResult _ _
  · exact isErrorResult_createErrorResult _ _
  · exact isErrorResult_createErrorResult _ _
  · exact isErrorResult_createErrorResult _ _

theorem claim_C6_witness :
    isErrorResult (ramiLevySearchProducts unitRLParsers throwingRLTransport
        (fun _ => none) { } { query := "milk" }) ∧
    isErrorResult (ramiLevyAddToCart unitRLParsers throwingRLTransport
        "2099-01-01" { } "123" 2 none) ∧
    isErrorResult (ramiLevyRemoveFromCart unitRLParsers throwingRLTransport
        "2099-01-01" none { } "rami-levy-123") ∧
    isErrorResult (ramiLevyUpdateCartQuantity unitRLParsers throwingRLTransport
        "2099-01-01" none { } "rami-levy-123" 2) ∧
    isErrorResult (ramiLevyGetCartContents unitRLParsers throwingRLTransport none { }) ∧
    isErrorResult (shufersalSearchProducts unitShufersalParsers throwingShufersalTransport
        (fun _ => none) { } { query := "milk" }) ∧
    isErrorResult (shufersalAddToCart unitShufersalParsers throwingShufersalTransport
        none none { } "123" 2 none) ∧
    isErrorResult (shufersalRemoveFromCart { }) ∧
    isErrorResult (shufersalUpdateCartQuantity { }) ∧
    isErrorResult (shufersalGetCartContents { }) :=
  claim_C6_result_never_throws unitRLParsers throwingRLTransport unitShufersalParsers
    throwingShufersalTransport (fun _ => none) "2099-01-01" none none none { } { }
    { query := "milk" } "123" "rami-levy-123" 2 none
    (fun _ _ => ⟨_, rfl⟩) (fun _ => ⟨_, rfl⟩) (fun _ _ => ⟨_, rfl⟩) (fun _ => ⟨_, rfl⟩)


/-! ## Claim C7: error-message redaction -/

lemma char_toLower_fixed (t : Char) (ht : t.toNat < 97 ∨ 122 < t.toNat)
    (c : Char) (h : c.toLower = t) : c = t := by
  unfold Char.toLower at h
  simp only [] at h
  by_cases hr : c.toNat ≥ 65 ∧ c.toNat ≤ 90
  · exfalso
    rw [if_pos hr] at h
    have hvalid : (c.toNat + 32).isValidChar := Or.inl (by omega)
    have hval : (Char.ofNat (c.toNat + 32)).toNat = c.toNat + 32 := by
      unfold Char.ofNat
      rw [dif_pos hvalid]
      unfold Char.ofNatAux Char.toNat
      simp [UInt32.ofNat', UInt32.toNat, BitVec.toNat_ofNatLt]
    rw [h] at hval
    omega
  · rw [if_neg hr] at h
    exact h

lemma ciPref_append_weaken (n : List Char) :
    ∀ (l z : List Char), ciPref n l = true → ciPref n (l ++ z) = true := by
  induction n with
  | nil => intro l z _; rfl
  | cons n0 n' ih =>
    intro l z h
    cases l with
    | nil => simp [ciPref] at h
    | cons x xs =>
      rw [List.cons_append]
      rw [ciPref] at h ⊢
      rw [Bool.and_eq_true] at h ⊢
      exact ⟨h.1, ih xs z h.2⟩

lemma containsCI_of_ciPref (n l : List Char) (h : ciPref n l = true) :
    containsCI n l = true := by
  cases l with
  | nil => exact h
  | cons x xs =>
    rw [containsCI, Bool.or_eq_true]
    exact Or.inl h

lemma containsCI_append_left (n : List Char) :
    ∀ (z s : List Char), containsCI n s = true → containsCI n (z ++ s) = true := by
  intro z
  induction z with
  | nil => intro s h; exact h
  | cons x xs ih =>
    intro s h
    rw [List.cons_append, containsCI, Bool.or_eq_true]
    exact Or.inr (ih s h)

lemma containsCI_append_right (n : List Char) :
    ∀ (s z : List Char), containsCI n s = true → containsCI n (s ++ z) = true := by
  intro s
  induction s with
  | nil =>
    intro z h
    have hn : ciPref n [] = true := h
    cases n with
    | nil => cases z with
      | nil => rfl
      | cons y ys => exact containsCI_of_ciPref _ _ rfl
    | cons n0 n' => simp [ciPref] at hn
  | cons x xs ih =>
    intro z h
    rw [containsCI, Bool.or_eq_true] at h
    rw [List.cons_append, containsCI, Bool.or_eq_true]
    rcases h with h | h
    · exact Or.inl (ciPref_append_weaken n (x :: xs) z h)
    · exact Or.inr (ih z h)

lemma containsCI_drop (n l : List Char) (k : ℕ)
    (h : containsCI n (l.drop k) = true) : containsCI n l = true := by
  have := containsCI_append_left n (l.take k) (l.drop k) h
  rwa [List.take_append_drop] at this

lemma containsCI_take (n l : List Char) (k : ℕ)
    (h : containsCI n (l.take k) = true) : containsCI n l = true := by
  have := containsCI_append_right n (l.take k) (l.drop k) h
  rwa [List.take_append_drop] at this

/-- A case-insensitive occurrence starting inside `s ++ [']']` cannot run
past the closing bracket when the needle contains no `]`. -/
lemma ciPref_stops_at_bracket :
    ∀ (s n R : List Char), (∀ c ∈ n, c.toLower ≠ ']') →
      ciPref n ((s ++ [']']) ++ R) = true → ciPref n s = true := by
  intro s
  induction s with
  | nil =>
    intro n R hbr h
    cases n with
    | nil => rfl
    | cons n0 n' =>
      rw [List.nil_append, List.singleton_append, ciPref, Bool.and_eq_true] at h
      exfalso
      apply hbr n0 (List.mem_cons_self n0 n')
      have := h.1
      rw [ciEqChar] at this
      simpa using this
  | cons x xs ih =>
    intro n R hbr h
    cases n with
    | nil => rfl
    | cons n0 n' =>
      rw [List.cons_append, List.cons_append, ciPref, Bool.and_eq_true] at h
      rw [ciPref, Bool.and_eq_true]
      exact ⟨h.1, ih n' R (fun c hc => hbr c (List.mem_cons_of_mem _ hc)) h.2⟩

/-- Occurrences cannot straddle the closing bracket of the replacement. -/
lemma containsCI_append_closing (n : List Char) (hn : n ≠ [])
    (hbr : ∀ c ∈ n, c.toLower ≠ ']') :
    ∀ (s R : List Char), containsCI n (s ++ [']']) = false →
      containsCI n R = false → containsCI n ((s ++ [']']) ++ R) = false := by
  intro s
  induction s with
  | nil =>
    intro R hs hR
    rw [List.nil_append, List.singleton_append, containsCI]
    rw [Bool.or_eq_false_iff]
    refine ⟨?_, hR⟩
    cases n with
    | nil => exact absurd rfl hn
    | cons n0 n' =>
      rw [ciPref]
      rw [Bool.and_eq_false_iff]
      left
      rw [ciEqChar]
      have := hbr n0 (List.mem_cons_self n0 n')
      simpa using this
  | cons x xs ih =>
    intro R hs hR
    have hs' : containsCI n (xs ++ [']']) = false := by
      rw [List.cons_append, containsCI, Bool.or_eq_false_iff] at hs
      exact hs.2
    rw [List.cons_append, List.cons_append, containsCI, Bool.or_eq_false_iff]
    constructor
    · by_contra hpos
      rw [Bool.not_eq_false] at hpos
      have hback : ciPref n (((x :: xs) ++ [']']) ++ R) = true := by
        rw [List.cons_append, List.cons_append]
        exact hpos
      have h1 : ciPref n (x :: xs) = true := ciPref_stops_at_bracket (x :: xs) n R hbr hback
      have h2 : ciPref n ((x :: xs) ++ [']']) = true := ciPref_append_weaken n (x :: xs) [']'] h1
      have h3 : containsCI n ((x :: xs) ++ [']']) = true := containsCI_of_ciPref _ _ h2
      rw [hs] at h3
      exact absurd h3 (by simp)
    · exact ih R hs' hR

/-- Following an occurrence through the scan: a case-insensitive prefix of
the scan output that is bracket-free is a case-insensitive prefix of the
input. -/
lemma ciPref_replaceByFuel_rev (M : List Char → Option ℕ) (r0 : List Char) :
    ∀ (fuel : ℕ) (l t : List Char), l.length ≤ fuel → t ≠ [] →
      (∀ c ∈ t, c.toLower ≠ '[') →
      ciPref t (replaceByFuel M ('[' :: r0) fuel l) = true → ciPref t l = true := by
  intro fuel
  induction fuel with
  | zero =>
    intro l t hlen ht _ h
    exact h
  | succ fuel ih =>
    intro l t hlen ht htbr h
    cases l with
    | nil =>
      rw [replaceByFuel] at h
      cases t with
      | nil => exact absurd rfl ht
      | cons t0 t' => simp [ciPref] at h
    | cons c rest =>
      have hlen2 : rest.length ≤ fuel := by
        simp only [List.length_cons] at hlen
        omega
      rw [replaceByFuel] at h
      cases t with
      | nil => exact absurd rfl ht
      | cons t0 t' =>
        rcases hM : M (c :: rest) with _ | k
        · simp only [hM] at h
          rw [ciPref, Bool.and_eq_true] at h ⊢
          refine ⟨h.1, ?_⟩
          cases t' with
          | nil => rfl
          | cons u us =>
            exact ih rest (u :: us) hlen2 (by simp)
              (fun d hd => htbr d (List.mem_cons_of_mem _ hd)) h.2
        · simp only [hM] at h
          by_cases hk : 0 < k
          · rw [if_pos hk] at h
            rw [List.cons_append, ciPref, Bool.and_eq_true] at h
            exfalso
            apply htbr t0 (List.mem_cons_self t0 t')
            have := h.1
            rw [ciEqChar] at this
            simpa using this
          · rw [if_neg hk] at h
            rw [ciPref, Bool.and_eq_true] at h ⊢
            refine ⟨h.1, ?_⟩
            cases t' with
            | nil => rfl
            | cons u us =>
              exact ih rest (u :: us) hlen2 (by simp)
                (fun d hd => htbr d (List.mem_cons_of_mem _ hd)) h.2

/-- Master lemma: one global replace pass with replacement `[REDACTED]`
leaves no case-insensitive occurrence of a bracket-free needle `n`,
provided the needle does not occur in the replacement, every positive
match consumes at least one character, and either the matcher fires on
every head occurrence of `n` (the pass for `n` itself) or the input was
already `n`-free (preservation through later passes). -/
lemma containsCI_replaceByFuel (M : List Char → Option ℕ) (n : List Char)
    (hn : n ≠ [])
    (hnbr : ∀ c ∈ n, c.toLower ≠ '[' ∧ c.toLower ≠ ']')
    (hrepl : containsCI n redactedChars = false)
    (hMk : ∀ l k, M l = some k → 0 < k) :
    ∀ (fuel : ℕ) (l : List Char), l.length ≤ fuel →
      ((∀ l2, M l2 = none → ciPref n l2 = false) ∨ containsCI n l = false) →
      containsCI n (replaceByFuel M redactedChars fuel l) = false := by
  have hciPref_nil_false : ciPref n [] = false := by
    cases n with
    | nil => exact absurd rfl hn
    | cons a b => rfl
  intro fuel
  induction fuel with
  | zero =>
    intro l hlen _
    have : l = [] := List.length_eq_zero.mp (Nat.le_zero.mp hlen)
    rw [this, replaceByFuel]
    exact hciPref_nil_false
  | succ fuel ih =>
    intro l hlen hyp
    cases l with
    | nil =>
      rw [replaceByFuel]
      exact hciPref_nil_false
    | cons c rest =>
      have hlen2 : rest.length ≤ fuel := by
        simp only [List.length_cons] at hlen
        omega
      have hyp_rest : (∀ l2, M l2 = none → ciPref n l2 = false) ∨
          containsCI n rest = false := by
        rcases hyp with hl | hr
        · exact Or.inl hl
        · right
          rw [containsCI, Bool.or_eq_false_iff] at hr
          exact hr.2
      rw [replaceByFuel]
      rcases hM0 : M (c :: rest) with _ | k
      · simp only [hM0]
        rw [containsCI, Bool.or_eq_false_iff]
        refine ⟨?_, ih rest hlen2 hyp_rest⟩
        by_contra hpos
        rw [Bool.not_eq_false] at hpos
        cases n with
        | nil => exact absurd rfl hn
        | cons n0 n' =>
          rw [ciPref, Bool.and_eq_true] at hpos
          have hfull : ciPref (n0 :: n') (c :: rest) = true := by
            rw [ciPref, Bool.and_eq_true]
            refine ⟨hpos.1, ?_⟩
            cases n' with
            | nil => rfl
            | cons u us =>
              exact ciPref_replaceByFuel_rev M ("REDACTED]".data) fuel rest (u :: us)
                hlen2 (by simp)
                (fun d hd => (hnbr d (List.mem_cons_of_mem _ hd)).1) hpos.2
          rcases hyp with hl | hr
          · have := hl (c :: rest) hM0
            rw [hfull] at this
            exact absurd this (by simp)
          · have hc2 : containsCI (n0 :: n') (c :: rest) = true :=
              containsCI_of_ciPref _ _ hfull
            rw [hr] at hc2
            exact absurd hc2 (by simp)
      · simp only [hM0]
        have hk : 0 < k := hMk _ _ hM0
        rw [if_pos hk]
        have hdropLen : (List.drop k (c :: rest)).length ≤ fuel := by
          rw [List.length_drop]
          simp only [List.length_cons]
          omega
        have hyp_drop : (∀ l2, M l2 = none → ciPref n l2 = false) ∨
            containsCI n (List.drop k (c :: rest)) = false := by
          rcases hyp with hl | hr
          · exact Or.inl hl
          · right
            by_contra hpos
            rw [Bool.not_eq_false] at hpos
            have := containsCI_drop n (c :: rest) k hpos
            rw [hr] at this
            exact absurd this (by simp)
        have hsplit : redactedChars = "[REDACTED".data ++ [']'] := rfl
        rw [hsplit]
        exact containsCI_append_closing n hn (fun d hd => (hnbr d hd).2)
          "[REDACTED".data (replaceByFuel M redactedChars fuel (List.drop k (c :: rest)))
          (by rw [← hsplit]; exact hrepl)
          (by rw [← hsplit] at *; exact ih (List.drop k (c :: rest)) hdropLen hyp_drop)

lemma plainMatchAt_none (nd l : List Char) (h : plainMatchAt nd l = none) :
    ciPref nd l = false := by
  unfold plainMatchAt at h
  by_cases hp : ciPref nd l = true
  · rw [if_pos hp] at h
    exact absurd h (by simp)
  · simpa using hp

lemma plainMatchAt_pos (nd : List Char) (hne : nd ≠ []) (l : List Char) (k : ℕ)
    (h : plainMatchAt nd l = some k) : 0 < k := by
  unfold plainMatchAt at h
  by_cases hp : ciPref nd l = true
  · rw [if_pos hp] at h
    have : nd.length = k := by simpa using h
    rw [← this]
    exact List.length_pos.mpr hne
  · rw [if_neg hp] at h
    exact absurd h (by simp)

lemma apiKeyMatchAt_pos (l : List Char) (k : ℕ) (h : apiKeyMatchAt l = some k) :
    0 < k := by
  unfold apiKeyMatchAt at h
  by_cases h1 : ciPref ['a', 'p', 'i'] l = true
  · rw [if_pos h1] at h
    rcases hd : l.drop 3 with _ | ⟨c, rest2⟩
    · simp only [hd] at h
      simp at h
    · simp only [hd] at h
      by_cases h2 : (c == '_' || c == '-') = true
      · rw [if_pos h2] at h
        by_cases h3 : ciPref ['k', 'e', 'y'] rest2 = true
        · rw [if_pos h3] at h
          simp only [Option.some.injEq] at h
          omega
        · rw [if_neg h3] at h
          simp at h
      · rw [if_neg h2] at h
        by_cases h3 : ciPref ['k', 'e', 'y'] (c :: rest2) = true
        · rw [if_pos h3] at h
          simp only [Option.some.injEq] at h
          omega
        · rw [if_neg h3] at h
          simp at h
  · rw [if_neg h1] at h
    simp at h

lemma apiKeyMatchAt_none_apikey (l : List Char) (h : apiKeyMatchAt l = none) :
    ciPref "apikey".data l = false := by
  by_contra hpos
  rw [Bool.not_eq_false] at hpos
  have hdata : "apikey".data = ['a', 'p', 'i', 'k', 'e', 'y'] := rfl
  rw [hdata] at hpos
  rcases l with _ | ⟨c0, _ | ⟨c1, _ | ⟨c2, _ | ⟨c3, _ | ⟨c4, _ | ⟨c5, rest⟩⟩⟩⟩⟩⟩ <;>
    simp only [ciPref, ciEqChar, Bool.and_eq_true, Bool.and_true, Bool.false_eq_true,
      and_false, false_and] at hpos
  obtain ⟨h0, h1, h2, h3, h4, h5⟩ := hpos
  have hapi : ciPref ['a', 'p', 'i'] (c0 :: c1 :: c2 :: c3 :: c4 :: c5 :: rest) = true := by
    simp only [ciPref, ciEqChar, Bool.and_eq_true, Bool.and_true]
    exact ⟨h0, h1, h2⟩
  unfold apiKeyMatchAt at h
  rw [if_pos hapi] at h
  simp only [List.drop_succ_cons, List.drop_zero] at h
  have e3 : c3.toLower = 'k' := by
    have := (beq_iff_eq.mp h3).symm
    simpa using this
  have hc3ne : (c3 == '_' || c3 == '-') = false := by
    rw [Bool.or_eq_false_iff]
    constructor <;> rw [beq_eq_false_iff_ne] <;> intro hc3 <;> rw [hc3] at e3 <;>
      exact absurd e3 (by decide)
  simp only [hc3ne, Bool.false_eq_true, if_false] at h
  have hkey : ciPref ['k', 'e', 'y'] (c3 :: c4 :: c5 :: rest) = true := by
    simp only [ciPref, ciEqChar, Bool.and_eq_true, Bool.and_true]
    exact ⟨h3, h4, h5⟩
  rw [if_pos hkey] at h
  simp at h

lemma apiKeyMatchAt_none_api_underscore_key (l : List Char)
    (h : apiKeyMatchAt l = none) : ciPref "api_key".data l = false := by
  by_contra hpos
  rw [Bool.not_eq_false] at hpos
  have hdata : "api_key".data = ['a', 'p', 'i', '_', 'k', 'e', 'y'] := rfl
  rw [hdata] at hpos
  rcases l with _ | ⟨c0, _ | ⟨c1, _ | ⟨c2, _ | ⟨c3, _ | ⟨c4, _ | ⟨c5, _ | ⟨c6, rest⟩⟩⟩⟩⟩⟩⟩ <;>
    simp only [ciPref, ciEqChar, Bool.and_eq_true, Bool.and_true, Bool.false_eq_true,
      and_false, false_and] at hpos
  obtain ⟨h0, h1, h2, h3, h4, h5, h6⟩ := hpos
  have hapi : ciPref ['a', 'p', 'i'] (c0 :: c1 :: c2 :: c3 :: c4 :: c5 :: c6 :: rest) = true := by
    simp only [ciPref, ciEqChar, Bool.and_eq_true, Bool.and_true]
    exact ⟨h0, h1, h2⟩
  unfold apiKeyMatchAt at h
  rw [if_pos hapi] at h
  simp only [List.drop_succ_cons, List.drop_zero] at h
  have e3 : c3.toLower = '_' := by
    have := (beq_iff_eq.mp h3).symm
    simpa using this
  have hc3 : c3 = '_' := char_toLower_fixed '_' (by decide) c3 e3
  rw [hc3] at h
  simp only [beq_self_eq_true, Bool.true_or, if_true] at h
  have hkey : ciPref ['k', 'e', 'y'] (c4 :: c5 :: c6 :: rest) = true := by
    simp only [ciPref, ciEqChar, Bool.and_eq_true, Bool.and_true]
    exact ⟨h4, h5, h6⟩
  rw [if_pos hkey] at h
  simp at h

lemma apiKeyMatchAt_none_api_dash_key (l : List Char)
    (h : apiKeyMatchAt l = none) : ciPref "api-key".data l = false := by
  by_contra hpos
  rw [Bool.not_eq_false] at hpos
  have hdata : "api-key".data = ['a', 'p', 'i', '-', 'k', 'e', 'y'] := rfl
  rw [hdata] at hpos
  rcases l with _ | ⟨c0, _ | ⟨c1, _ | ⟨c2, _ | ⟨c3, _ | ⟨c4, _ | ⟨c5, _ | ⟨c6, rest⟩⟩⟩⟩⟩⟩⟩ <;>
    simp only [ciPref, ciEqChar, Bool.and_eq_true, Bool.and_true, Bool.false_eq_true,
      and_false, false_and] at hpos
  obtain ⟨h0, h1, h2, h3, h4, h5, h6⟩ := hpos
  have hapi : ciPref ['a', 'p', 'i'] (c0 :: c1 :: c2 :: c3 :: c4 :: c5 :: c6 :: rest) = true := by
    simp only [ciPref, ciEqChar, Bool.and_eq_true, Bool.and_true]
    exact ⟨h0, h1, h2⟩
  unfold apiKeyMatchAt at h
  rw [if_pos hapi] at h
  simp only [List.drop_succ_cons, List.drop_zero] at h
  have e3 : c3.toLower = '-' := by
    have := (beq_iff_eq.mp h3).symm
    simpa using this
  have hc3 : c3 = '-' := char_toLower_fixed '-' (by decide) c3 e3
  rw [hc3] at h
  simp only [beq_self_eq_true, Bool.or_true, if_true] at h
  have hkey : ciPref ['k', 'e', 'y'] (c4 :: c5 :: c6 :: rest) = true := by
    simp only [ciPref, ciEqChar, Bool.and_eq_true, Bool.and_true]
    exact ⟨h4, h5, h6⟩
  rw [if_pos hkey] at h
  simp at h

/-- Specialization of the master lemma to `replaceBy`. -/
lemma containsCI_replaceBy_false (M : List Char → Option ℕ) (n : List Char)
    (hn : n ≠ [])
    (hnbr : ∀ c ∈ n, c.toLower ≠ '[' ∧ c.toLower ≠ ']')
    (hrepl : containsCI n redactedChars = false)
    (hMk : ∀ l k, M l = some k → 0 < k)
    (l : List Char)
    (hyp : (∀ l2, M l2 = none → ciPref n l2 = false) ∨ containsCI n l = false) :
    containsCI n (replaceBy M redactedChars l) = false :=
  containsCI_replaceByFuel M n hn hnbr hrepl hMk l.length l le_rfl hyp

lemma containsCI_take_false (n l : List Char) (k : ℕ)
    (h : containsCI n l = false) : containsCI n (l.take k) = false := by
  cases hc : containsCI n (l.take k) with
  | false => rfl
  | true =>
    have := containsCI_take n l k hc
    rw [h] at this
    exact absurd this (by simp)

/-- C7 amended: `formatSecureError` returns a string of at most 500
characters containing no case-insensitive occurrence of `apikey`,
`api_key`, `api-key`, `token`, `password`, `secret` or `credential`.
(The original claim's needle "api key" — with a space — is not matched by
the `/api[_-]?key/gi` pass and survives; see the counterexample.) -/
theorem claim_C7_redaction_amended (e : String) :
    (formatSecureError e).length ≤ 500 ∧
    containsCI "apikey".data (formatSecureError e).data = false ∧
    containsCI "api_key".data (formatSecureError e).data = false ∧
    containsCI "api-key".data (formatSecureError e).data = false ∧
    containsCI "token".data (formatSecureError e).data = false ∧
    containsCI "password".data (formatSecureError e).data = false ∧
    containsCI "secret".data (formatSecureError e).data = false ∧
    containsCI "credential".data (formatSecureError e).data = false := by
  have hform : (formatSecureError e).data =
      (replaceBy (plainMatchAt "credential".data) redactedChars
        (replaceBy (plainMatchAt "secret".data) redactedChars
          (replaceBy (plainMatchAt "password".data) redactedChars
            (replaceBy (plainMatchAt "token".data) redactedChars
              (replaceBy apiKeyMatchAt redactedChars e.data))))).take 500 := rfl
  have hlen : (formatSecureError e).length ≤ 500 := by
    have h1 : (formatSecureError e).length = (formatSecureError e).data.length := rfl
    rw [h1, hform]
    exact List.length_take_le _ _
  -- pass 1 kills the api-key family; later passes preserve the absence
  have hak1 : containsCI "apikey".data
      (replaceBy apiKeyMatchAt redactedChars e.data) = false :=
    containsCI_replaceBy_false _ _ (by decide) (by decide) (by decide)
      apiKeyMatchAt_pos _ (Or.inl (fun l2 h2 => apiKeyMatchAt_none_apikey l2 h2))
  have hak2 : containsCI "api_key".data
      (replaceBy apiKeyMatchAt redactedChars e.data) = false :=
    containsCI_replaceBy_false _ _ (by decide) (by decide) (by decide)
      apiKeyMatchAt_pos _ (Or.inl (fun l2 h2 => apiKeyMatchAt_none_api_underscore_key l2 h2))
  have hak3 : containsCI "api-key".data
      (replaceBy apiKeyMatchAt redactedChars e.data) = false :=
    containsCI_replaceBy_false _ _ (by decide) (by decide) (by decide)
      apiKeyMatchAt_pos _ (Or.inl (fun l2 h2 => apiKeyMatchAt_none_api_dash_key l2 h2))
  -- helper to push an absence through one plain pass
  have keep : ∀ (n nd : List Char), n ≠ [] →
      (∀ c ∈ n, c.toLower ≠ '[' ∧ c.toLower ≠ ']') →
      containsCI n redactedChars = false → nd ≠ [] →
      ∀ l, containsCI n l = false →
        containsCI n (replaceBy (plainMatchAt nd) redactedChars l) = false := by
    intro n nd hn hnbr hrepl hnd l hl
    exact containsCI_replaceBy_false _ _ hn hnbr hrepl
      (fun l2 k2 h2 => plainMatchAt_pos nd hnd l2 k2 h2) l (Or.inr hl)
  -- the self-killing plain passes
  have htok : containsCI "token".data
      (replaceBy (plainMatchAt "token".data) redactedChars
        (replaceBy apiKeyMatchAt redactedChars e.data)) = false :=
    containsCI_replaceBy_false _ _ (by decide) (by decide) (by decide)
      (fun l2 k2 h2 => plainMatchAt_pos _ (by decide) l2 k2 h2) _
      (Or.inl (fun l2 h2 => plainMatchAt_none _ l2 h2))
  have hpwd : containsCI "password".data
      (replaceBy (plainMatchAt "password".data) redactedChars
        (replaceBy (plainMatchAt "token".data) redactedChars
          (replaceBy apiKeyMatchAt redactedChars e.data))) = false :=
    containsCI_replaceBy_false _ _ (by decide) (by decide) (by decide)
      (fun l2 k2 h2 => plainMatchAt_pos _ (by decide) l2 k2 h2) _
      (Or.inl (fun l2 h2 => plainMatchAt_none _ l2 h2))
  have hsec : containsCI "secret".data
      (replaceBy (plainMatchAt "secret".data) redactedChars
        (replaceBy (plainMatchAt "password".data) redactedChars
          (replaceBy (plainMatchAt "token".data) redactedChars
            (replaceBy apiKeyMatchAt redactedChars e.data)))) = false :=
    containsCI_replaceBy_false _ _ (by decide) (by decide) (by decide)
      (fun l2 k2 h2 => plainMatchAt_pos _ (by decide) l2 k2 h2) _
      (Or.inl (fun l2 h2 => plainMatchAt_none _ l2 h2))
  have hcred : containsCI "credential".data
      (replaceBy (plainMatchAt "credential".data) redactedChars
        (replaceBy (plainMatchAt "secret".data) redactedChars
          (replaceBy (plainMatchAt "password".data) redactedChars
            (replaceBy (plainMatchAt "token".data) redactedChars
              (replaceBy apiKeyMatchAt redactedChars e.data))))) = false :=
    containsCI_replaceBy_false _ _ (by decide) (by decide) (by decide)
      (fun l2 k2 h2 => plainMatchAt_pos _ (by decide) l2 k2 h2) _
      (Or.inl (fun l2 h2 => plainMatchAt_none _ l2 h2))
  refine ⟨hlen, ?_, ?_, ?_, ?_, ?_, ?_, hform ▸ containsCI_take_false _ _ _ hcred⟩
  · rw [hform]
    refine containsCI_take_false _ _ _ ?_
    refine keep _ _ (by decide) (by decide) (by decide) (by decide) _ ?_
    refine keep _ _ (by decide) (by decide) (by decide) (by decide) _ ?_
    refine keep _ _ (by decide) (by decide) (by decide) (by decide) _ ?_
    exact keep _ _ (by decide) (by decide) (by decide) (by decide) _ hak1
  · rw [hform]
    refine containsCI_take_false _ _ _ ?_
    refine keep _ _ (by decide) (by decide) (by decide) (by decide) _ ?_
    refine keep _ _ (by decide) (by decide) (by decide) (by decide) _ ?_
    refine keep _ _ (by decide) (by decide) (by decide) (by decide) _ ?_
    exact keep _ _ (by decide) (by decide) (by decide) (by decide) _ hak2
  · rw [hform]
    refine containsCI_take_false _ _ _ ?_
    refine keep _ _ (by decide) (by decide) (by decide) (by decide) _ ?_
    refine keep _ _ (by decide) (by decide) (by decide) (by decide) _ ?_
    refine keep _ _ (by decide) (by decide) (by decide) (by decide) _ ?_
    exact keep _ _ (by decide) (by decide) (by decide) (by decide) _ hak3
  · rw [hform]
    refine containsCI_take_false _ _ _ ?_
    refine keep _ _ (by decide) (by decide) (by decide) (by decide) _ ?_
    refine keep _ _ (by decide) (by decide) (by decide) (by decide) _ ?_
    exact keep _ _ (by decide) (by decide) (by decide) (by decide) _ htok
  · rw [hform]
    refine containsCI_take_false _ _ _ ?_
    refine keep _ _ (by decide) (by decide) (by decide) (by decide) _ ?_
    exact keep _ _ (by decide) (by decide) (by decide) (by decide) _ hpwd
  · rw [hform]
    refine containsCI_take_false _ _ _ ?_
    exact keep _ _ (by decide) (by decide) (by decide) (by decide) _ hsec

set_option maxRecDepth 2000 in
/-- C7 counterexample: the pattern `/api[_-]?key/gi` does not match
"api key" (with a space), so that substring survives redaction verbatim —
the claim's "no case-insensitive occurrence of 'api key'" is false. -/
theorem claim_C7_counterexample :
    containsCI "api key".data (formatSecureError "api key").data = true ∧
    formatSecureError "api key" = "api key" := by
  decide

theorem claim_C7_witness :
    (formatSecureError "Bearer sk-abc123 token").length ≤ 500 ∧
    containsCI "apikey".data (formatSecureError "Bearer sk-abc123 token").data = false ∧
    containsCI "api_key".data (formatSecureError "Bearer sk-abc123 token").data = false ∧
    containsCI "api-key".data (formatSecureError "Bearer sk-abc123 token").data = false ∧
    containsCI "token".data (formatSecureError "Bearer sk-abc123 token").data = false ∧
    containsCI "password".data (formatSecureError "Bearer sk-abc123 token").data = false ∧
    containsCI "secret".data (formatSecureError "Bearer sk-abc123 token").data = false ∧
    containsCI "credential".data (formatSecureError "Bearer sk-abc123 token").data = false :=
  claim_C7_redaction_amended "Bearer sk-abc123 token"

end ShoppingMCP
